import Mathlib

/-!
# Asynchronous UART engine of `bcl/src/bc_uart.c`

A shallow embedding of the asynchronous part of `bc_uart.c`: the control block
table `_bc_uart[3]`, the engine entry points (`bc_uart_async_write`,
`bc_uart_async_read_start`, `bc_uart_async_read_cancel`, `bc_uart_async_read`),
the two scheduler tasks and the interrupt handler.

The state the C code works on is made explicit in `World`:
* `_bc_uart` is the table of control blocks, indexed by channel;
* `periph` holds, for every USART peripheral, the register bits the engine
  reads or writes (three interrupt enables of `CR1`, three status flags of
  `ISR`, `RDR`, and the sequence of values loaded into `TDR`);
* `sched`, `core` and `events` are the collaborators the engine calls:
  the cooperative scheduler, the power gate of `bc_module_core` and the
  user's event callback.  Their code is not part of `bc_uart.c`; they are
  modelled by their contract.

A pointer to a byte queue is an `Option bc_fifo_t` (`none` is `NULL`).  A call
that would dereference a `NULL` queue has no defined result and yields `none`.
-/

namespace BcUart

/-! ## Types taken from the headers -/

/-- Channel identifiers, the index type of `_bc_uart[3]`. -/
inductive bc_uart_channel_t
  | BC_UART_UART0
  | BC_UART_UART1
  | BC_UART_UART2
  deriving DecidableEq, Repr

/-- Event kinds handed to the user callback. -/
inductive bc_uart_event_t
  | BC_UART_EVENT_ASYNC_WRITE_DONE
  | BC_UART_EVENT_ASYNC_READ_DATA
  | BC_UART_EVENT_ASYNC_READ_TIMEOUT
  deriving DecidableEq, Repr

/-- The four peripherals a control block's `usart` pointer can designate after
`bc_uart_init`.  A `NULL` value only occurs in a block that was never
initialised, where no engine function dereferences it. -/
inductive USART_TypeDef
  | USART1
  | USART2
  | USART4
  | LPUART1
  deriving DecidableEq, Repr

open bc_uart_channel_t bc_uart_event_t USART_TypeDef

/-- Scheduler time, `bc_tick_t`. -/
abbrev bc_tick_t := Nat

/-- Modelled from the spec: the "infinite due-time" constant `BC_TICK_INFINITY`
(declared in `bc_tick.h`, which is not part of the sources at hand); the
largest 64-bit tick value stands for it. -/
def BC_TICK_INFINITY : bc_tick_t := 2 ^ 64 - 1

/-- Modelled from the spec: the value of the enumerator `BC_UART_BAUDRATE_9600`
(declared in `bc_uart.h`, not at hand), the first entry of `_bc_uart_brr_t`. -/
def BC_UART_BAUDRATE_9600 : Nat := 0

/-! ## Byte queue -/

/-- Modelled from the spec: the Byte Queue (`bc_fifo_t`, implemented in
`bc_fifo.c`, not at hand), a fixed-capacity queue; `data` lists the stored
bytes, front first. -/
structure bc_fifo_t where
  capacity : Nat
  data : List Nat
  deriving DecidableEq, Repr

/-- Modelled from the spec: `push(bytes) -> accepted_count` of the Byte Queue
(`bc_fifo_write`): as many bytes of `buffer` as fit are appended, in order, and
their number is returned. -/
def bc_fifo_write (fifo : bc_fifo_t) (buffer : List Nat) : bc_fifo_t × Nat :=
  let n := min buffer.length (fifo.capacity - fifo.data.length)
  ({ fifo with data := fifo.data ++ buffer.take n }, n)

/-- Modelled from the spec: `pop(max) -> bytes` of the Byte Queue
(`bc_fifo_read`): up to `length` bytes are removed from the front and copied
out; the C function returns their number. -/
def bc_fifo_read (fifo : bc_fifo_t) (length : Nat) : bc_fifo_t × List Nat :=
  ({ fifo with data := fifo.data.drop length }, fifo.data.take length)

/-- Modelled from the spec: the interrupt-safe push of the Byte Queue
(`bc_fifo_irq_write`), same transfer as `bc_fifo_write`. -/
def bc_fifo_irq_write (fifo : bc_fifo_t) (buffer : List Nat) : bc_fifo_t × Nat :=
  bc_fifo_write fifo buffer

/-- Modelled from the spec: the interrupt-safe pop of the Byte Queue
(`bc_fifo_irq_read`), same transfer as `bc_fifo_read`. -/
def bc_fifo_irq_read (fifo : bc_fifo_t) (length : Nat) : bc_fifo_t × List Nat :=
  bc_fifo_read fifo length

/-- Modelled from the spec: `is_empty() -> bool` of the Byte Queue. -/
def bc_fifo_is_empty (fifo : bc_fifo_t) : Bool :=
  fifo.data.isEmpty

/-! ## Cooperative scheduler -/

/-- Which of the two task functions of `bc_uart.c` a scheduler slot holds. -/
inductive task_fn
  | async_write_task
  | async_read_task
  deriving DecidableEq, Repr

/-- One registered task: the function, its `param` (the address of
`_bc_uart[param]`) and the tick at which it is due. -/
structure bc_scheduler_task_t where
  task : task_fn
  param : bc_uart_channel_t
  tick_execution : bc_tick_t
  deriving DecidableEq, Repr

/-- Content of slot `id` of a task pool; `none` when the slot is free. -/
def pool_get : List (Option bc_scheduler_task_t) → Nat → Option bc_scheduler_task_t
  | [], _ => none
  | x :: _, 0 => x
  | _ :: r, i + 1 => pool_get r i

/-- Overwrites slot `id` of a task pool, growing the pool when needed. -/
def pool_set : List (Option bc_scheduler_task_t) → Nat → Option bc_scheduler_task_t →
    List (Option bc_scheduler_task_t)
  | [], 0, v => [v]
  | [], i + 1, v => none :: pool_set [] i v
  | _ :: r, 0, v => v :: r
  | x :: r, i + 1, v => x :: pool_set r i v

/-- Index of the first free slot of a task pool. -/
def pool_free : List (Option bc_scheduler_task_t) → Nat
  | [] => 0
  | none :: _ => 0
  | some _ :: r => pool_free r + 1

/-- Number of occupied slots of a task pool. -/
def pool_count : List (Option bc_scheduler_task_t) → Nat
  | [] => 0
  | none :: r => pool_count r
  | some _ :: r => pool_count r + 1

/-- Sets the due tick of slot `id`, when that slot holds a task. -/
def pool_plan (pool : List (Option bc_scheduler_task_t)) (id : Nat) (tick : bc_tick_t) :
    List (Option bc_scheduler_task_t) :=
  match pool_get pool id with
  | none => pool
  | some t => pool_set pool id (some { t with tick_execution := tick })

/-- Modelled from the spec: the Cooperative Scheduler (`bc_scheduler.c`, not at
hand): the pool of registered tasks, the current time `now`, and the slot of
the task being run. -/
structure bc_scheduler_t where
  pool : List (Option bc_scheduler_task_t)
  now : bc_tick_t
  current_task_id : Nat
  deriving DecidableEq, Repr

/-- Modelled from the spec: `register(callback, context, due) -> handle`; the
task takes the first free slot, whose index is the handle. -/
def bc_scheduler_register (s : bc_scheduler_t) (task : task_fn) (param : bc_uart_channel_t)
    (tick : bc_tick_t) : bc_scheduler_t × Nat :=
  let id := pool_free s.pool
  ({ s with pool := pool_set s.pool id (some ⟨task, param, tick⟩) }, id)

/-- Modelled from the spec: `unregister(handle)`. -/
def bc_scheduler_unregister (s : bc_scheduler_t) (id : Nat) : bc_scheduler_t :=
  { s with pool := pool_set s.pool id none }

/-- Modelled from the spec: `reschedule(handle, due)`. -/
def bc_scheduler_plan_absolute (s : bc_scheduler_t) (id : Nat) (tick : bc_tick_t) :
    bc_scheduler_t :=
  { s with pool := pool_plan s.pool id tick }

/-- Modelled from the spec: `run_now(handle)`, the task becomes due at the
current time. -/
def bc_scheduler_plan_now (s : bc_scheduler_t) (id : Nat) : bc_scheduler_t :=
  { s with pool := pool_plan s.pool id s.now }

/-- Modelled from the spec: `reschedule_relative_now(duration)`, called from
within the running task, which becomes due at `now + duration`. -/
def bc_scheduler_plan_current_relative (s : bc_scheduler_t) (tick : bc_tick_t) :
    bc_scheduler_t :=
  { s with pool := pool_plan s.pool s.current_task_id (s.now + tick) }

/-! ## Power gate -/

/-- Modelled from the spec: the Power Domain Gate (`bc_module_core.c`, not at
hand), observed through the number of calls of each of its four functions. -/
structure bc_module_core_t where
  pll_enable : Nat
  pll_disable : Nat
  deep_sleep_disable : Nat
  deep_sleep_enable : Nat
  deriving DecidableEq, Repr

/-! ## Peripheral registers and control block -/

/-- The register bits of one USART peripheral that the engine touches.  `TDR`
is the sequence of values loaded into the transmit data register, oldest
first. -/
structure USART_regs where
  CR1_TXEIE : Bool
  CR1_TCIE : Bool
  CR1_RXNEIE : Bool
  ISR_TXE : Bool
  ISR_TC : Bool
  ISR_RXNE : Bool
  RDR : Nat
  TDR : List Nat
  deriving DecidableEq, Repr

/-- The control block `bc_uart_t`.  `event_handler` is the function pointer
(`none` for `NULL`), the two queue fields are the queue pointers. -/
structure bc_uart_t where
  initialized : Bool
  event_handler : Option Nat
  event_param : Nat
  write_fifo : Option bc_fifo_t
  read_fifo : Option bc_fifo_t
  async_write_task_id : Nat
  async_read_task_id : Nat
  async_write_in_progress : Bool
  async_read_in_progress : Bool
  async_timeout : bc_tick_t
  usart : USART_TypeDef
  deriving DecidableEq, Repr

/-- One call of the user callback: the function called and its arguments. -/
structure event_call where
  handler : Nat
  channel : bc_uart_channel_t
  event : bc_uart_event_t
  param : Nat
  deriving DecidableEq, Repr

/-- Everything the engine reads or writes. -/
structure World where
  _bc_uart : bc_uart_channel_t → bc_uart_t
  periph : USART_TypeDef → USART_regs
  sched : bc_scheduler_t
  core : bc_module_core_t
  events : List event_call

/-- Updates the control block of one channel. -/
def set_uart (w : World) (channel : bc_uart_channel_t) (f : bc_uart_t → bc_uart_t) : World :=
  { w with _bc_uart := Function.update w._bc_uart channel (f (w._bc_uart channel)) }

/-- Updates the registers of one peripheral. -/
def set_regs (w : World) (usart : USART_TypeDef) (f : USART_regs → USART_regs) : World :=
  { w with periph := Function.update w.periph usart (f (w.periph usart)) }

/-- Call of `bc_module_core_pll_enable`. -/
def bc_module_core_pll_enable (w : World) : World :=
  { w with core := { w.core with pll_enable := w.core.pll_enable + 1 } }

/-- Call of `bc_module_core_pll_disable`. -/
def bc_module_core_pll_disable (w : World) : World :=
  { w with core := { w.core with pll_disable := w.core.pll_disable + 1 } }

/-- Call of `bc_module_core_deep_sleep_disable`. -/
def bc_module_core_deep_sleep_disable (w : World) : World :=
  { w with core := { w.core with deep_sleep_disable := w.core.deep_sleep_disable + 1 } }

/-- Call of `bc_module_core_deep_sleep_enable`. -/
def bc_module_core_deep_sleep_enable (w : World) : World :=
  { w with core := { w.core with deep_sleep_enable := w.core.deep_sleep_enable + 1 } }

/-- Call of the user callback `event_handler(channel, event, param)`. -/
def call_event_handler (w : World) (handler : Nat) (channel : bc_uart_channel_t)
    (event : bc_uart_event_t) (param : Nat) : World :=
  { w with events := w.events ++ [⟨handler, channel, event, param⟩] }

/-! ## The functions of `bc_uart.c` -/

/-- `bc_uart_init`: the control block is zeroed, the peripheral is chosen from
the channel (and the baudrate for `BC_UART_UART1`), `CR1` is assigned a value
without any interrupt enable, and `initialized` is set.  Pin, clock and frame
configuration are left out. -/
def bc_uart_init (w : World) (channel : bc_uart_channel_t) (baudrate : Nat) (_setting : Nat) :
    World :=
  let usart :=
    match channel with
    | BC_UART_UART0 => USART4
    | BC_UART_UART1 => if baudrate ≤ BC_UART_BAUDRATE_9600 then LPUART1 else USART2
    | BC_UART_UART2 => USART1
  let w1 := set_uart w channel (fun _ =>
    { initialized := false, event_handler := none, event_param := 0,
      write_fifo := none, read_fifo := none,
      async_write_task_id := 0, async_read_task_id := 0,
      async_write_in_progress := false, async_read_in_progress := false,
      async_timeout := 0, usart := usart })
  let w2 := set_regs w1 usart (fun r =>
    { r with CR1_TXEIE := false, CR1_TCIE := false, CR1_RXNEIE := false })
  set_uart w2 channel (fun u => { u with initialized := true })

/-- `bc_uart_set_event_handler`. -/
def bc_uart_set_event_handler (w : World) (channel : bc_uart_channel_t)
    (event_handler : Option Nat) (event_param : Nat) : World :=
  set_uart w channel (fun u =>
    { u with event_handler := event_handler, event_param := event_param })

/-- `bc_uart_set_async_fifo`. -/
def bc_uart_set_async_fifo (w : World) (channel : bc_uart_channel_t)
    (write_fifo read_fifo : Option bc_fifo_t) : World :=
  set_uart w channel (fun u => { u with write_fifo := write_fifo, read_fifo := read_fifo })

/-- `bc_uart_async_write`; `buffer` lists the `length` bytes to enqueue.  The
result is the new state and the returned count. -/
def bc_uart_async_write (w : World) (channel : bc_uart_channel_t) (buffer : List Nat) :
    World × Nat :=
  let u := w._bc_uart channel
  if !u.initialized then (w, 0) else
  match u.write_fifo with
  | none => (w, 0)
  | some fifo =>
    let r := bc_fifo_write fifo buffer
    let bytes_written := r.2
    let w1 := set_uart w channel (fun u => { u with write_fifo := some r.1 })
    if bytes_written != 0 then
      let w2 :=
        if !u.async_write_in_progress then
          let reg := bc_scheduler_register w1.sched task_fn.async_write_task channel
            BC_TICK_INFINITY
          let w11 := set_uart { w1 with sched := reg.1 } channel
            (fun u => { u with async_write_task_id := reg.2 })
          if u.usart = LPUART1 then bc_module_core_deep_sleep_disable w11
          else bc_module_core_pll_enable w11
        else
          { w1 with sched :=
              bc_scheduler_plan_absolute w1.sched u.async_write_task_id BC_TICK_INFINITY }
      let w3 := set_regs w2 u.usart (fun r => { r with CR1_TXEIE := true })
      let w4 := set_uart w3 channel (fun u => { u with async_write_in_progress := true })
      (w4, bytes_written)
    else (w1, bytes_written)

/-- `bc_uart_async_read_start`. -/
def bc_uart_async_read_start (w : World) (channel : bc_uart_channel_t) (timeout : bc_tick_t) :
    World × Bool :=
  let u := w._bc_uart channel
  if !u.initialized || u.read_fifo.isNone || u.async_read_in_progress then (w, false) else
  let w1 := set_uart w channel (fun u => { u with async_timeout := timeout })
  let reg := bc_scheduler_register w1.sched task_fn.async_read_task channel
    (w1._bc_uart channel).async_timeout
  let w2 := set_uart { w1 with sched := reg.1 } channel
    (fun u => { u with async_read_task_id := reg.2 })
  let w3 := set_regs w2 u.usart (fun r => { r with CR1_RXNEIE := true })
  let w4 := if u.usart ≠ LPUART1 then bc_module_core_pll_enable w3 else w3
  let w5 := set_uart w4 channel (fun u => { u with async_read_in_progress := true })
  (w5, true)

/-- `bc_uart_async_read_cancel`. -/
def bc_uart_async_read_cancel (w : World) (channel : bc_uart_channel_t) : World × Bool :=
  let u := w._bc_uart channel
  if !u.initialized || !u.async_read_in_progress then (w, false) else
  let w1 := set_uart w channel (fun u => { u with async_read_in_progress := false })
  let w2 := set_regs w1 u.usart (fun r => { r with CR1_RXNEIE := false })
  let w3 := if u.usart ≠ LPUART1 then bc_module_core_pll_disable w2 else w2
  let w4 := { w3 with sched := bc_scheduler_unregister w3.sched u.async_read_task_id }
  (w4, false)

/-- `bc_uart_async_read`; the result is the new state, the returned count and
the bytes copied to `buffer`. -/
def bc_uart_async_read (w : World) (channel : bc_uart_channel_t) (length : Nat) :
    Option (World × Nat × List Nat) :=
  let u := w._bc_uart channel
  if !u.initialized || !u.async_read_in_progress then some (w, 0, []) else
  match u.read_fifo with
  | none => none
  | some fifo =>
    let r := bc_fifo_read fifo length
    some (set_uart w channel (fun u => { u with read_fifo := some r.1 }), r.2.length, r.2)

/-- `_bc_uart_async_write_task`; `param` designates the control block
`_bc_uart[param]`. -/
def _bc_uart_async_write_task (w : World) (param : bc_uart_channel_t) : World :=
  let uart := w._bc_uart param
  let w1 := set_uart w param (fun u => { u with async_write_in_progress := false })
  let w2 := { w1 with sched := bc_scheduler_unregister w1.sched uart.async_write_task_id }
  let w3 :=
    if uart.usart = LPUART1 then bc_module_core_deep_sleep_enable w2
    else bc_module_core_pll_disable w2
  match uart.event_handler with
  | some h => call_event_handler w3 h BC_UART_UART1 BC_UART_EVENT_ASYNC_WRITE_DONE
      uart.event_param
  | none => w3

/-- `_bc_uart_async_read_task`; `param` designates the control block
`_bc_uart[param]`. -/
def _bc_uart_async_read_task (w : World) (param : bc_uart_channel_t) : Option World :=
  let uart := w._bc_uart param
  let w1 := { w with sched := bc_scheduler_plan_current_relative w.sched uart.async_timeout }
  match uart.event_handler with
  | some h =>
    match uart.read_fifo with
    | none => none
    | some fifo =>
      if bc_fifo_is_empty fifo then
        some (call_event_handler w1 h BC_UART_UART1 BC_UART_EVENT_ASYNC_READ_TIMEOUT
          uart.event_param)
      else
        some (call_event_handler w1 h BC_UART_UART1 BC_UART_EVENT_ASYNC_READ_DATA
          uart.event_param)
  | none => some w1

/-- First block of `_bc_uart_irq_handler`: the transmit-empty interrupt. -/
def irq_transmit (w : World) (channel : bc_uart_channel_t) : Option World :=
  let usart := (w._bc_uart channel).usart
  if (w.periph usart).CR1_TXEIE && (w.periph usart).ISR_TXE then
    match (w._bc_uart channel).write_fifo with
    | none => none
    | some fifo =>
      let r := bc_fifo_irq_read fifo 1
      if r.2.length != 0 then
        let w1 := set_uart w channel (fun u => { u with write_fifo := some r.1 })
        some (set_regs w1 usart (fun g => { g with TDR := g.TDR ++ r.2 }))
      else
        let w1 := set_regs w usart (fun g => { g with CR1_TXEIE := false })
        some (set_regs w1 usart (fun g => { g with CR1_TCIE := true }))
  else some w

/-- Second block of `_bc_uart_irq_handler`: the transmission-complete
interrupt. -/
def irq_complete (w : World) (channel : bc_uart_channel_t) : World :=
  let usart := (w._bc_uart channel).usart
  if (w.periph usart).CR1_TCIE && (w.periph usart).ISR_TC then
    let w1 := set_regs w usart (fun g => { g with CR1_TCIE := false })
    { w1 with sched :=
        bc_scheduler_plan_now w1.sched (w1._bc_uart channel).async_write_task_id }
  else w

/-- Third block of `_bc_uart_irq_handler`: the receive interrupt.  The byte
read from `RDR` is kept in a `uint8_t`. -/
def irq_receive (w : World) (channel : bc_uart_channel_t) : Option World :=
  let usart := (w._bc_uart channel).usart
  if (w.periph usart).CR1_RXNEIE && (w.periph usart).ISR_RXNE then
    let character := (w.periph usart).RDR % 256
    match (w._bc_uart channel).read_fifo with
    | none => none
    | some fifo =>
      let r := bc_fifo_irq_write fifo [character]
      let w1 := set_uart w channel (fun u => { u with read_fifo := some r.1 })
      some { w1 with sched :=
        bc_scheduler_plan_now w1.sched (w1._bc_uart channel).async_read_task_id }
  else some w

/-- `_bc_uart_irq_handler`: its three blocks in source order. -/
def _bc_uart_irq_handler (w : World) (channel : bc_uart_channel_t) : Option World :=
  (irq_transmit w channel).bind fun w1 => irq_receive (irq_complete w1 channel) channel

/-! ## Environment of the engine: hardware status, time, scheduler runs -/

/-- The hardware updates the status flags and the receive data register of a
peripheral. -/
def hw_status (w : World) (usart : USART_TypeDef) (txe tc rxne : Bool) (rdr : Nat) : World :=
  set_regs w usart (fun g => { g with ISR_TXE := txe, ISR_TC := tc, ISR_RXNE := rxne, RDR := rdr })

/-- Time advances by `d` ticks. -/
def tick_advance (w : World) (d : Nat) : World :=
  { w with sched := { w.sched with now := w.sched.now + d } }

/-- Modelled from the spec: one scheduler run of slot `id`: a registered task
whose due tick has been reached is called, outside interrupt context, with its
`param`; nothing happens for a free slot or a task that is not due. -/
def bc_scheduler_run_task (w : World) (id : Nat) : Option World :=
  match pool_get w.sched.pool id with
  | none => some w
  | some t =>
    if t.tick_execution ≤ w.sched.now then
      let w1 := { w with sched := { w.sched with current_task_id := id } }
      match t.task with
      | task_fn.async_write_task => some (_bc_uart_async_write_task w1 t.param)
      | task_fn.async_read_task => _bc_uart_async_read_task w1 t.param
    else some w

/-- One step of the engine on a channel, or of its environment. -/
inductive Op
  | async_write (buffer : List Nat)
  | async_read_start (timeout : bc_tick_t)
  | async_read_cancel
  | async_read (length : Nat)
  | irq (txe tc rxne : Bool) (rdr : Nat)
  | run (id : Nat)
  | tick (d : Nat)
  deriving DecidableEq, Repr

/-- Effect of one step on channel `channel`.  `Op.irq` is an interrupt request
of the channel's peripheral: the hardware sets its status, then
`_bc_uart_irq_handler` runs. -/
def exec (w : World) (channel : bc_uart_channel_t) : Op → Option World
  | Op.async_write buffer => some (bc_uart_async_write w channel buffer).1
  | Op.async_read_start timeout => some (bc_uart_async_read_start w channel timeout).1
  | Op.async_read_cancel => some (bc_uart_async_read_cancel w channel).1
  | Op.async_read length => (bc_uart_async_read w channel length).map Prod.fst
  | Op.irq txe tc rxne rdr =>
      _bc_uart_irq_handler (hw_status w (w._bc_uart channel).usart txe tc rxne rdr) channel
  | Op.run id => bc_scheduler_run_task w id
  | Op.tick d => some (tick_advance w d)

/-- Effect of a finite sequence of steps. -/
def execs (w : World) (channel : bc_uart_channel_t) : List Op → Option World
  | [] => some w
  | op :: ops => (exec w channel op).bind fun w1 => execs w1 channel ops

/-- A freshly initialised channel: `bc_uart_init`, then the two queues and the
callback are attached. -/
def fresh_channel (w : World) (channel : bc_uart_channel_t) (baudrate setting : Nat)
    (write_fifo read_fifo : bc_fifo_t) (event_handler : Option Nat) (event_param : Nat) : World :=
  bc_uart_set_event_handler
    (bc_uart_set_async_fifo (bc_uart_init w channel baudrate setting) channel
      (some write_fifo) (some read_fifo))
    channel event_handler event_param

/-- Sub-state flag as a number: 1 when active. -/
def active (b : Bool) : Nat := if b then 1 else 0

/-- A state in which nothing was ever started: no task in the scheduler, no
power-gate call, no event, every control block zeroed. -/
def boot : World :=
  { _bc_uart := fun _ =>
      { initialized := false, event_handler := none, event_param := 0,
        write_fifo := none, read_fifo := none,
        async_write_task_id := 0, async_read_task_id := 0,
        async_write_in_progress := false, async_read_in_progress := false,
        async_timeout := 0, usart := USART4 }
    periph := fun _ =>
      { CR1_TXEIE := false, CR1_TCIE := false, CR1_RXNEIE := false,
        ISR_TXE := false, ISR_TC := false, ISR_RXNE := false, RDR := 0, TDR := [] }
    sched := { pool := [], now := 0, current_task_id := 0 }
    core := { pll_enable := 0, pll_disable := 0, deep_sleep_disable := 0, deep_sleep_enable := 0 }
    events := [] }

/-- Successive calls of `bc_uart_async_write` with the given buffers: the final
state and the list of returned counts, in call order. -/
def async_writes (w : World) (channel : bc_uart_channel_t) : List (List Nat) → World × List Nat
  | [] => (w, [])
  | buffer :: rest =>
    let r := bc_uart_async_write w channel buffer
    let rs := async_writes r.1 channel rest
    (rs.1, r.2 :: rs.2)

/-- Successive interrupt requests with the transmit-empty flag pending; each
entry gives the transmission-complete flag, the receive flag and `RDR` at that
request. -/
def transmit_irqs (w : World) (channel : bc_uart_channel_t) :
    List (Bool × Bool × Nat) → Option World
  | [] => some w
  | f :: rest =>
    (exec w channel (Op.irq true f.1 f.2.1 f.2.2)).bind fun w1 => transmit_irqs w1 channel rest

/-! ## Power-gate bookkeeping along a run -/

/-- The task pool agrees with the two sub-states of channel `c`: every
registered task belongs to `c` and is the write task in the write handle's slot
while a write is in progress, or the read task in the read handle's slot while
a read is in progress; and an active sub-state has its task registered. -/
def pool_ok (pool : List (Option bc_scheduler_task_t)) (c : bc_uart_channel_t)
    (wip : Bool) (wid : Nat) (rip : Bool) (rid : Nat) : Prop :=
  (∀ i t, pool_get pool i = some t →
    t.param = c ∧
    ((t.task = task_fn.async_write_task ∧ wip = true ∧ i = wid) ∨
     (t.task = task_fn.async_read_task ∧ rip = true ∧ i = rid))) ∧
  (wip = true → ∃ t, pool_get pool wid = some t ∧ t.task = task_fn.async_write_task) ∧
  (rip = true → ∃ t, pool_get pool rid = some t ∧ t.task = task_fn.async_read_task)

/-- The power-gate calls still awaiting their release are exactly those of the
active sub-states of channel `c`: one `pll_enable` per active sub-state on an
ordinary port; on `LPUART1` one `deep_sleep_disable` for an active write and
nothing for an active read. -/
def gate_balanced (w : World) (c : bc_uart_channel_t) : Prop :=
  w.core.pll_enable = w.core.pll_disable +
    (if (w._bc_uart c).usart = LPUART1 then 0
     else active (w._bc_uart c).async_write_in_progress +
       active (w._bc_uart c).async_read_in_progress) ∧
  w.core.deep_sleep_disable = w.core.deep_sleep_enable +
    (if (w._bc_uart c).usart = LPUART1 then active (w._bc_uart c).async_write_in_progress
     else 0)

/-- Invariant of the runs of channel `c`: the channel is initialised with both
queues attached, the task pool agrees with its sub-states, and the power gate
is balanced. -/
def paired (w : World) (c : bc_uart_channel_t) : Prop :=
  (w._bc_uart c).initialized = true ∧
  (w._bc_uart c).write_fifo ≠ none ∧
  (w._bc_uart c).read_fifo ≠ none ∧
  pool_ok w.sched.pool c (w._bc_uart c).async_write_in_progress
    (w._bc_uart c).async_write_task_id (w._bc_uart c).async_read_in_progress
    (w._bc_uart c).async_read_task_id ∧
  gate_balanced w c

/-- Power-gate calls made by one step from `w` to `w1` on channel `c`, against
the sub-state changes of that step: an acquisition per entry to Draining or
Armed and a release per return to Idle, of the high-frequency clock on an
ordinary port; on `LPUART1`, of deep-sleep suppression for the write sub-state
only. -/
def step_paired (w w1 : World) (c : bc_uart_channel_t) : Prop :=
  (w1._bc_uart c).usart = (w._bc_uart c).usart ∧
  w1.core.pll_enable = w.core.pll_enable +
    (if (w._bc_uart c).usart = LPUART1 then 0
     else active (!(w._bc_uart c).async_write_in_progress &&
                   (w1._bc_uart c).async_write_in_progress) +
          active (!(w._bc_uart c).async_read_in_progress &&
                   (w1._bc_uart c).async_read_in_progress)) ∧
  w1.core.deep_sleep_disable = w.core.deep_sleep_disable +
    (if (w._bc_uart c).usart = LPUART1
     then active (!(w._bc_uart c).async_write_in_progress &&
                    (w1._bc_uart c).async_write_in_progress)
     else 0) ∧
  w1.core.pll_disable = w.core.pll_disable +
    (if (w._bc_uart c).usart = LPUART1 then 0
     else active ((w._bc_uart c).async_write_in_progress &&
                   !(w1._bc_uart c).async_write_in_progress) +
          active ((w._bc_uart c).async_read_in_progress &&
                   !(w1._bc_uart c).async_read_in_progress)) ∧
  w1.core.deep_sleep_enable = w.core.deep_sleep_enable +
    (if (w._bc_uart c).usart = LPUART1
     then active ((w._bc_uart c).async_write_in_progress &&
                    !(w1._bc_uart c).async_write_in_progress)
     else 0)

/-- A step from `w` to `w1` that leaves the power gate, the peripheral choice
and both sub-states of channel `c` as they were. -/
def gate_untouched (w w1 : World) (c : bc_uart_channel_t) : Prop :=
  w1.core = w.core ∧
  (w1._bc_uart c).usart = (w._bc_uart c).usart ∧
  (w1._bc_uart c).async_write_in_progress = (w._bc_uart c).async_write_in_progress ∧
  (w1._bc_uart c).async_read_in_progress = (w._bc_uart c).async_read_in_progress

/-- What one run of the write completion task does between `w` and `w1` on
channel `c`: the write sub-state goes from Draining to Idle, exactly one
power-gate release is made (and no acquisition), and the callback, when one is
registered, receives exactly one event, `BC_UART_EVENT_ASYNC_WRITE_DONE`. -/
def write_done_once (w w1 : World) (c : bc_uart_channel_t) : Prop :=
  (w._bc_uart c).async_write_in_progress = true ∧
  (w1._bc_uart c).async_write_in_progress = false ∧
  w1.core.pll_disable + w1.core.deep_sleep_enable =
    w.core.pll_disable + w.core.deep_sleep_enable + 1 ∧
  w1.core.pll_enable = w.core.pll_enable ∧
  w1.core.deep_sleep_disable = w.core.deep_sleep_disable ∧
  w1.events.map event_call.event = w.events.map event_call.event ++
    (if (w._bc_uart c).event_handler = none then []
     else [BC_UART_EVENT_ASYNC_WRITE_DONE])

/-! ## Example states -/

/-- Channel `BC_UART_UART0` (peripheral `USART4`) freshly initialised, with an
empty write queue of capacity 8, an empty read queue of capacity 4 and a
callback. -/
def fresh0 : World :=
  fresh_channel boot BC_UART_UART0 0 0 ⟨8, []⟩ ⟨4, []⟩ (some 7) 42

/-- Channel `BC_UART_UART1` freshly initialised at 9600 baud, which selects
`LPUART1`, with the same queues and callback as `fresh0`. -/
def fresh_lp : World :=
  fresh_channel boot BC_UART_UART1 BC_UART_BAUDRATE_9600 0 ⟨8, []⟩ ⟨4, []⟩ (some 7) 42

/-- Channel `BC_UART_UART0` freshly initialised like `fresh0`, but without a
callback. -/
def fresh_silent : World :=
  fresh_channel boot BC_UART_UART0 0 0 ⟨8, []⟩ ⟨4, []⟩ none 0

/-- A complete transfer of one byte: enqueue, the transmit-empty request that
loads it, the transmit-empty request that finds the queue empty, the
transmission-complete request, and the scheduler run of slot 0. -/
def one_byte_transfer : List Op :=
  [Op.async_write [65], Op.irq true false false 0, Op.irq true false false 0,
    Op.irq false true false 0, Op.run 0]

/-- Channel `BC_UART_UART0` after three bytes were enqueued from Idle. -/
def draining0 : World :=
  (bc_uart_async_write fresh0 BC_UART_UART0 [1, 2, 3]).1

/-- Channel `BC_UART_UART0` after a read was armed with timeout 100. -/
def armed0 : World :=
  (bc_uart_async_read_start fresh0 BC_UART_UART0 100).1

/-! ## What the interrupt handler leaves alone -/

/-- Between `w` and `w1` the control block of channel `c` differs at most in
the contents of its two queues. -/
def same_block (w w1 : World) (c : bc_uart_channel_t) : Prop :=
  (w1._bc_uart c).initialized = (w._bc_uart c).initialized ∧
  (w1._bc_uart c).event_handler = (w._bc_uart c).event_handler ∧
  (w1._bc_uart c).event_param = (w._bc_uart c).event_param ∧
  (w1._bc_uart c).async_write_task_id = (w._bc_uart c).async_write_task_id ∧
  (w1._bc_uart c).async_read_task_id = (w._bc_uart c).async_read_task_id ∧
  (w1._bc_uart c).async_write_in_progress = (w._bc_uart c).async_write_in_progress ∧
  (w1._bc_uart c).async_read_in_progress = (w._bc_uart c).async_read_in_progress ∧
  (w1._bc_uart c).async_timeout = (w._bc_uart c).async_timeout ∧
  (w1._bc_uart c).usart = (w._bc_uart c).usart

/-- Between `w` and `w1` nothing changed that no block of the interrupt handler
of channel `c` writes: the power gate, the event log, the time, the control
block apart from queue contents, the receive interrupt enable, the status
flags and the receive data register. -/
def irq_frame (w w1 : World) (c : bc_uart_channel_t) : Prop :=
  w1.core = w.core ∧ w1.events = w.events ∧ w1.sched.now = w.sched.now ∧
  same_block w w1 c ∧
  (w1.periph (w._bc_uart c).usart).CR1_RXNEIE = (w.periph (w._bc_uart c).usart).CR1_RXNEIE ∧
  (w1.periph (w._bc_uart c).usart).ISR_TXE = (w.periph (w._bc_uart c).usart).ISR_TXE ∧
  (w1.periph (w._bc_uart c).usart).ISR_TC = (w.periph (w._bc_uart c).usart).ISR_TC ∧
  (w1.periph (w._bc_uart c).usart).ISR_RXNE = (w.periph (w._bc_uart c).usart).ISR_RXNE ∧
  (w1.periph (w._bc_uart c).usart).RDR = (w.periph (w._bc_uart c).usart).RDR

/-- A Draining channel `BC_UART_UART0` whose queue was emptied, with the
transmit-empty and the transmission-complete flags both pending. -/
def drained0_txe_tc : World :=
  hw_status
    (set_uart draining0 BC_UART_UART0 (fun u => { u with write_fifo := some ⟨8, []⟩ }))
    USART4 true true false 0

/-- The state `armed0` thirty ticks later, when a byte arrives: the receive
flag is pending and the receive data register holds 300. -/
def armed0_rx : World :=
  hw_status (tick_advance armed0 30) USART4 false false true 300

/-- The receive interrupt enable of channel `c` is set exactly while a read is
in progress. -/
def rx_matches (w : World) (c : bc_uart_channel_t) : Prop :=
  (w.periph (w._bc_uart c).usart).CR1_RXNEIE = (w._bc_uart c).async_read_in_progress

/-- A read armed with timeout 100, a byte (register value 300) arriving thirty
ticks later, and the scheduler run of slot 0 that the interrupt planned. -/
def byte_arrives_at_30 : List Op :=
  [Op.async_read_start 100, Op.tick 30, Op.irq false false true 300, Op.run 0]

end BcUart

namespace BcUart

open bc_uart_channel_t bc_uart_event_t USART_TypeDef

/-! ## Facts about the task pool -/

theorem pool_get_nil (j : Nat) : pool_get [] j = none := by
  cases j <;> rfl

theorem pool_get_set (p : List (Option bc_scheduler_task_t)) (i : Nat)
    (v : Option bc_scheduler_task_t) (j : Nat) :
    pool_get (pool_set p i v) j = if j = i then v else pool_get p j := by
  induction p generalizing i j with
  | nil =>
    induction i generalizing j with
    | zero =>
      cases j with
      | zero => simp [pool_set, pool_get]
      | succ j => simp [pool_set, pool_get, pool_get_nil]
    | succ i ih =>
      cases j with
      | zero => simp [pool_set, pool_get]
      | succ j => simp [pool_set, pool_get, ih, pool_get_nil]
  | cons x r ih =>
    cases i with
    | zero =>
      cases j with
      | zero => simp [pool_set, pool_get]
      | succ j => simp [pool_set, pool_get]
    | succ i =>
      cases j with
      | zero => simp [pool_set, pool_get]
      | succ j => simp [pool_set, pool_get, ih]

theorem pool_get_free (p : List (Option bc_scheduler_task_t)) :
    pool_get p (pool_free p) = none := by
  induction p with
  | nil => rfl
  | cons x r ih =>
    cases x with
    | none => rfl
    | some t => simpa [pool_free, pool_get] using ih

theorem pool_count_set_nil (i : Nat) (t : bc_scheduler_task_t) :
    pool_count (pool_set [] i (some t)) = 1 := by
  induction i with
  | zero => rfl
  | succ i ih => simpa [pool_set, pool_count] using ih

theorem pool_count_set (p : List (Option bc_scheduler_task_t)) (i : Nat)
    (t : bc_scheduler_task_t) (h : pool_get p i = none) :
    pool_count (pool_set p i (some t)) = pool_count p + 1 := by
  induction p generalizing i with
  | nil => simpa [pool_count] using pool_count_set_nil i t
  | cons x r ih =>
    cases i with
    | zero =>
      simp only [pool_get] at h
      subst h
      simp [pool_set, pool_count]
    | succ i =>
      simp only [pool_get] at h
      cases x with
      | none => simpa [pool_set, pool_count] using ih i h
      | some u => simpa [pool_set, pool_count] using ih i h

theorem pool_get_plan (p : List (Option bc_scheduler_task_t)) (i : Nat) (tick : bc_tick_t)
    (j : Nat) :
    pool_get (pool_plan p i tick) j =
      if j = i then (pool_get p i).map (fun t => { t with tick_execution := tick })
      else pool_get p j := by
  unfold pool_plan
  cases h : pool_get p i with
  | none =>
    by_cases hj : j = i
    · subst hj; simp [h]
    · simp [hj]
  | some t => simp [pool_get_set]

theorem pool_count_plan (p : List (Option bc_scheduler_task_t)) (i : Nat) (tick : bc_tick_t) :
    pool_count (pool_plan p i tick) = pool_count p := by
  unfold pool_plan
  cases h : pool_get p i with
  | none => rfl
  | some t =>
    simp only
    induction p generalizing i with
    | nil => simp [pool_get_nil] at h
    | cons x r ih =>
      cases i with
      | zero =>
        simp only [pool_get] at h
        subst h
        simp [pool_set, pool_count]
      | succ i =>
        simp only [pool_get] at h
        cases x with
        | none => simpa [pool_set, pool_count] using ih i h
        | some u => simpa [pool_set, pool_count] using ih i h

/-! ## Reading a state after an update -/

@[simp] theorem set_uart_uart (w : World) (c : bc_uart_channel_t) (f : bc_uart_t → bc_uart_t) :
    (set_uart w c f)._bc_uart c = f (w._bc_uart c) := by
  simp [set_uart]

@[simp] theorem set_uart_periph (w : World) (c : bc_uart_channel_t) (f : bc_uart_t → bc_uart_t) :
    (set_uart w c f).periph = w.periph := rfl

@[simp] theorem set_uart_sched (w : World) (c : bc_uart_channel_t) (f : bc_uart_t → bc_uart_t) :
    (set_uart w c f).sched = w.sched := rfl

@[simp] theorem set_uart_core (w : World) (c : bc_uart_channel_t) (f : bc_uart_t → bc_uart_t) :
    (set_uart w c f).core = w.core := rfl

@[simp] theorem set_uart_events (w : World) (c : bc_uart_channel_t) (f : bc_uart_t → bc_uart_t) :
    (set_uart w c f).events = w.events := rfl

@[simp] theorem set_regs_regs (w : World) (p : USART_TypeDef) (f : USART_regs → USART_regs) :
    (set_regs w p f).periph p = f (w.periph p) := by
  simp [set_regs]

@[simp] theorem set_regs_uart (w : World) (p : USART_TypeDef) (f : USART_regs → USART_regs) :
    (set_regs w p f)._bc_uart = w._bc_uart := rfl

@[simp] theorem set_regs_sched (w : World) (p : USART_TypeDef) (f : USART_regs → USART_regs) :
    (set_regs w p f).sched = w.sched := rfl

@[simp] theorem set_regs_core (w : World) (p : USART_TypeDef) (f : USART_regs → USART_regs) :
    (set_regs w p f).core = w.core := rfl

@[simp] theorem set_regs_events (w : World) (p : USART_TypeDef) (f : USART_regs → USART_regs) :
    (set_regs w p f).events = w.events := rfl


/-! ## Enqueue -/

/-- C5: on a channel that is not initialised or has no write queue attached,
`bc_uart_async_write` returns 0 and leaves the whole state unchanged: control
block, registers, scheduler, power gate and event log. -/
theorem bc_uart_async_write_rejected (w : World) (channel : bc_uart_channel_t)
    (buffer : List Nat)
    (h : (w._bc_uart channel).initialized = false ∨ (w._bc_uart channel).write_fifo = none) :
    bc_uart_async_write w channel buffer = (w, 0) := by
  unfold bc_uart_async_write
  rcases h with h | h
  · simp [h]
  · cases hi : (w._bc_uart channel).initialized <;> simp [h]

/-- Witness of C5: an uninitialised channel, and an initialised one without a
write queue. -/
theorem bc_uart_async_write_rejected_witness :
    (boot._bc_uart BC_UART_UART0).initialized = false ∧
    bc_uart_async_write boot BC_UART_UART0 [1, 2, 3] = (boot, 0) ∧
    ((bc_uart_init boot BC_UART_UART2 3 0)._bc_uart BC_UART_UART2).write_fifo = none ∧
    bc_uart_async_write (bc_uart_init boot BC_UART_UART2 3 0) BC_UART_UART2 [9] =
      (bc_uart_init boot BC_UART_UART2 3 0, 0) :=
  ⟨rfl, bc_uart_async_write_rejected boot BC_UART_UART0 [1, 2, 3] (Or.inl rfl), rfl,
    bc_uart_async_write_rejected (bc_uart_init boot BC_UART_UART2 3 0) BC_UART_UART2 [9]
      (Or.inr rfl)⟩


/-- C3: enqueue from Idle.  On an initialised channel with a write queue and no
write in progress, a call whose queue push accepts at least one byte returns
the accepted count (at most the requested length), enters Draining, registers
exactly one task, the write task of this channel with an infinite due tick, in
a slot that was free, leaves the other slots as they were, sets the
transmit-empty interrupt enable, and makes exactly one power-gate call:
`pll_enable` on an ordinary port, `deep_sleep_disable` on `LPUART1`. -/
theorem bc_uart_async_write_from_idle (w : World) (channel : bc_uart_channel_t)
    (buffer : List Nat) (fifo : bc_fifo_t)
    (hinit : (w._bc_uart channel).initialized = true)
    (hfifo : (w._bc_uart channel).write_fifo = some fifo)
    (hidle : (w._bc_uart channel).async_write_in_progress = false)
    (hacc : (bc_fifo_write fifo buffer).2 ≠ 0) :
    (bc_uart_async_write w channel buffer).2 = (bc_fifo_write fifo buffer).2 ∧
    (bc_uart_async_write w channel buffer).2 ≤ buffer.length ∧
    ((bc_uart_async_write w channel buffer).1._bc_uart channel).async_write_in_progress = true ∧
    pool_count (bc_uart_async_write w channel buffer).1.sched.pool =
      pool_count w.sched.pool + 1 ∧
    pool_get w.sched.pool
      ((bc_uart_async_write w channel buffer).1._bc_uart channel).async_write_task_id = none ∧
    pool_get (bc_uart_async_write w channel buffer).1.sched.pool
      ((bc_uart_async_write w channel buffer).1._bc_uart channel).async_write_task_id =
        some ⟨task_fn.async_write_task, channel, BC_TICK_INFINITY⟩ ∧
    (∀ j, j ≠ ((bc_uart_async_write w channel buffer).1._bc_uart channel).async_write_task_id →
      pool_get (bc_uart_async_write w channel buffer).1.sched.pool j =
        pool_get w.sched.pool j) ∧
    ((bc_uart_async_write w channel buffer).1.periph
      (w._bc_uart channel).usart).CR1_TXEIE = true ∧
    (bc_uart_async_write w channel buffer).1.core =
      (if (w._bc_uart channel).usart = LPUART1
        then { w.core with deep_sleep_disable := w.core.deep_sleep_disable + 1 }
        else { w.core with pll_enable := w.core.pll_enable + 1 }) := by
  have hlen : (bc_fifo_write fifo buffer).2 ≤ buffer.length := by
    simp only [bc_fifo_write]; exact Nat.min_le_left _ _
  unfold bc_uart_async_write
  simp only [hinit, hfifo, hidle, bne_iff_ne, ne_eq, hacc, not_false_eq_true, if_true,
    Bool.not_true, Bool.not_false, Bool.false_eq_true, if_false]
  by_cases hlp : (w._bc_uart channel).usart = LPUART1
  · simp [hlp, hlen, bc_module_core_deep_sleep_disable, bc_scheduler_register, pool_get_set,
      pool_get_free, pool_count_set]
    intro j hj hj2
    exact absurd hj2 hj
  · simp [hlp, hlen, bc_module_core_pll_enable, bc_scheduler_register, pool_get_set,
      pool_get_free, pool_count_set]
    intro j hj hj2
    exact absurd hj2 hj

/-- Witness of C3: five bytes enqueued on the idle channel `fresh0`. -/
theorem bc_uart_async_write_from_idle_witness :
    (bc_uart_async_write fresh0 BC_UART_UART0 [1, 2, 3, 4, 5]).2 = 5 ∧
    ((bc_uart_async_write fresh0 BC_UART_UART0 [1, 2, 3, 4, 5]).1._bc_uart
      BC_UART_UART0).async_write_in_progress = true ∧
    pool_count (bc_uart_async_write fresh0 BC_UART_UART0 [1, 2, 3, 4, 5]).1.sched.pool =
      pool_count fresh0.sched.pool + 1 :=
  have h := bc_uart_async_write_from_idle fresh0 BC_UART_UART0 [1, 2, 3, 4, 5] ⟨8, []⟩
    rfl rfl rfl (by decide)
  ⟨h.1.trans rfl, h.2.2.1, h.2.2.2.1⟩

/-- C4: enqueue while Draining.  On an initialised channel with a write in
progress, a call whose queue push accepts at least one byte appends the
accepted bytes to the back of the queue, keeps the task handle and the number
of registered tasks, sets the due tick of the task in the handle's slot to
infinite whatever it was before, leaves the other slots and the power gate
untouched, stays Draining and sets the transmit-empty interrupt enable. -/
theorem bc_uart_async_write_while_draining (w : World) (channel : bc_uart_channel_t)
    (buffer : List Nat) (fifo : bc_fifo_t)
    (hinit : (w._bc_uart channel).initialized = true)
    (hfifo : (w._bc_uart channel).write_fifo = some fifo)
    (hbusy : (w._bc_uart channel).async_write_in_progress = true)
    (hacc : (bc_fifo_write fifo buffer).2 ≠ 0) :
    (bc_uart_async_write w channel buffer).2 = (bc_fifo_write fifo buffer).2 ∧
    ((bc_uart_async_write w channel buffer).1._bc_uart channel).write_fifo =
      some { fifo with
        data := fifo.data ++ buffer.take (bc_uart_async_write w channel buffer).2 } ∧
    ((bc_uart_async_write w channel buffer).1._bc_uart channel).async_write_task_id =
      (w._bc_uart channel).async_write_task_id ∧
    pool_count (bc_uart_async_write w channel buffer).1.sched.pool = pool_count w.sched.pool ∧
    pool_get (bc_uart_async_write w channel buffer).1.sched.pool
        (w._bc_uart channel).async_write_task_id =
      (pool_get w.sched.pool (w._bc_uart channel).async_write_task_id).map
        (fun t => { t with tick_execution := BC_TICK_INFINITY }) ∧
    (∀ j, j ≠ (w._bc_uart channel).async_write_task_id →
      pool_get (bc_uart_async_write w channel buffer).1.sched.pool j =
        pool_get w.sched.pool j) ∧
    (bc_uart_async_write w channel buffer).1.core = w.core ∧
    ((bc_uart_async_write w channel buffer).1._bc_uart channel).async_write_in_progress = true ∧
    ((bc_uart_async_write w channel buffer).1.periph
      (w._bc_uart channel).usart).CR1_TXEIE = true := by
  unfold bc_uart_async_write
  simp only [hinit, hfifo, hbusy, bne_iff_ne, ne_eq, hacc, not_false_eq_true, if_true,
    Bool.not_true, Bool.false_eq_true, if_false]
  simp [bc_scheduler_plan_absolute, pool_get_plan, pool_count_plan, bc_fifo_write]
  intro j hj
  simp [hj]

/-- Witness of C4: two more bytes enqueued on `draining0` after the interrupt
path planned the write task to run now. -/
theorem bc_uart_async_write_while_draining_witness :
    pool_get (bc_scheduler_plan_now draining0.sched 0).pool 0 =
      some ⟨task_fn.async_write_task, BC_UART_UART0, 0⟩ ∧
    pool_get (bc_uart_async_write
        { draining0 with sched := bc_scheduler_plan_now draining0.sched 0 }
        BC_UART_UART0 [4, 5]).1.sched.pool 0 =
      some ⟨task_fn.async_write_task, BC_UART_UART0, BC_TICK_INFINITY⟩ ∧
    ((bc_uart_async_write
        { draining0 with sched := bc_scheduler_plan_now draining0.sched 0 }
        BC_UART_UART0 [4, 5]).1._bc_uart BC_UART_UART0).write_fifo =
      some ⟨8, [1, 2, 3, 4, 5]⟩ :=
  have h := bc_uart_async_write_while_draining
    { draining0 with sched := bc_scheduler_plan_now draining0.sched 0 }
    BC_UART_UART0 [4, 5] ⟨8, [1, 2, 3]⟩ rfl rfl rfl (by decide)
  ⟨rfl, h.2.2.2.2.1.trans rfl, h.2.1.trans rfl⟩


/-! ## Arming and cancelling a read -/

/-- What a successful `bc_uart_async_read_start` does: it returns true, stores
the timeout, enters Armed, sets the receive interrupt enable, and registers the
read task of this channel in a free slot with the timeout itself as due
tick. -/
theorem bc_uart_async_read_start_effect (w : World) (channel : bc_uart_channel_t)
    (timeout : bc_tick_t)
    (hinit : (w._bc_uart channel).initialized = true)
    (hfifo : (w._bc_uart channel).read_fifo ≠ none)
    (hidle : (w._bc_uart channel).async_read_in_progress = false) :
    (bc_uart_async_read_start w channel timeout).2 = true ∧
    ((bc_uart_async_read_start w channel timeout).1._bc_uart channel).async_timeout = timeout ∧
    ((bc_uart_async_read_start w channel timeout).1._bc_uart channel).async_read_in_progress
      = true ∧
    ((bc_uart_async_read_start w channel timeout).1.periph
      (w._bc_uart channel).usart).CR1_RXNEIE = true ∧
    pool_get w.sched.pool
      ((bc_uart_async_read_start w channel timeout).1._bc_uart channel).async_read_task_id
      = none ∧
    pool_get (bc_uart_async_read_start w channel timeout).1.sched.pool
      ((bc_uart_async_read_start w channel timeout).1._bc_uart channel).async_read_task_id =
        some ⟨task_fn.async_read_task, channel, timeout⟩ := by
  unfold bc_uart_async_read_start
  cases hf : (w._bc_uart channel).read_fifo with
  | none => exact absurd hf hfifo
  | some q =>
    by_cases hlp : (w._bc_uart channel).usart = LPUART1
    · simp [hinit, hidle, hlp, hf, bc_scheduler_register, pool_get_set, pool_get_free]
    · simp [hinit, hidle, hlp, hf, bc_scheduler_register, pool_get_set, pool_get_free,
        bc_module_core_pll_enable]

/-- C6, the code at a failing input: on `fresh0` at time 50, arming a read
with timeout 100 succeeds, stores 100 and arms the channel, but the task is
registered with due tick 100, not 50 + 100. -/
theorem bc_uart_async_read_start_due_is_timeout :
    (tick_advance fresh0 50).sched.now = 50 ∧
    (bc_uart_async_read_start (tick_advance fresh0 50) BC_UART_UART0 100).2 = true ∧
    ((bc_uart_async_read_start (tick_advance fresh0 50) BC_UART_UART0 100).1._bc_uart
      BC_UART_UART0).async_timeout = 100 ∧
    pool_get (bc_uart_async_read_start (tick_advance fresh0 50) BC_UART_UART0 100).1.sched.pool
      ((bc_uart_async_read_start (tick_advance fresh0 50) BC_UART_UART0 100).1._bc_uart
        BC_UART_UART0).async_read_task_id =
        some ⟨task_fn.async_read_task, BC_UART_UART0, 100⟩ ∧
    (100 : Nat) ≠ (tick_advance fresh0 50).sched.now + 100 := by
  refine ⟨rfl, rfl, rfl, rfl, ?_⟩
  show (100 : Nat) ≠ 50 + 0 + 100
  decide

/-- C7 as stated fails on `LPUART1`: arming a read on `fresh_lp` succeeds
without any `pll_enable` call, and cancelling it makes no `pll_disable`
call. -/
theorem bc_uart_async_read_start_lpuart1_no_clock :
    (fresh_lp._bc_uart BC_UART_UART1).usart = LPUART1 ∧
    (bc_uart_async_read_start fresh_lp BC_UART_UART1 100).2 = true ∧
    (bc_uart_async_read_start fresh_lp BC_UART_UART1 100).1.core.pll_enable =
      fresh_lp.core.pll_enable ∧
    ((bc_uart_async_read_cancel (bc_uart_async_read_start fresh_lp BC_UART_UART1 100).1
        BC_UART_UART1).1._bc_uart BC_UART_UART1).async_read_in_progress = false ∧
    (bc_uart_async_read_cancel (bc_uart_async_read_start fresh_lp BC_UART_UART1 100).1
        BC_UART_UART1).1.core.pll_disable = fresh_lp.core.pll_disable :=
  ⟨rfl, rfl, rfl, rfl, rfl⟩

/-- C7, amended: a successful `bc_uart_async_read_start` calls `pll_enable`
exactly once and the matching `bc_uart_async_read_cancel` calls `pll_disable`
exactly once on every port other than `LPUART1`; on `LPUART1` neither of them
makes any power-gate call.  No other power-gate function is called. -/
theorem bc_uart_async_read_clock_pairing (w : World) (channel : bc_uart_channel_t)
    (timeout : bc_tick_t)
    (hinit : (w._bc_uart channel).initialized = true)
    (hfifo : (w._bc_uart channel).read_fifo ≠ none)
    (hidle : (w._bc_uart channel).async_read_in_progress = false) :
    (bc_uart_async_read_start w channel timeout).2 = true ∧
    (bc_uart_async_read_start w channel timeout).1.core =
      (if (w._bc_uart channel).usart ≠ LPUART1
        then { w.core with pll_enable := w.core.pll_enable + 1 } else w.core) ∧
    (bc_uart_async_read_cancel (bc_uart_async_read_start w channel timeout).1 channel).1.core =
      (if (w._bc_uart channel).usart ≠ LPUART1
        then { w.core with pll_enable := w.core.pll_enable + 1,
                           pll_disable := w.core.pll_disable + 1 }
        else w.core) := by
  unfold bc_uart_async_read_cancel bc_uart_async_read_start
  cases hf : (w._bc_uart channel).read_fifo with
  | none => exact absurd hf hfifo
  | some q =>
    by_cases hlp : (w._bc_uart channel).usart = LPUART1
    · simp [hinit, hidle, hlp, hf]
    · simp [hinit, hidle, hlp, hf, bc_module_core_pll_enable, bc_module_core_pll_disable]

/-- Witness of C7 amended, on the ordinary port of `fresh0`. -/
theorem bc_uart_async_read_clock_pairing_witness :
    (bc_uart_async_read_start fresh0 BC_UART_UART0 100).1.core.pll_enable = 1 ∧
    (bc_uart_async_read_cancel (bc_uart_async_read_start fresh0 BC_UART_UART0 100).1
      BC_UART_UART0).1.core.pll_disable = 1 :=
  have h := bc_uart_async_read_clock_pairing fresh0 BC_UART_UART0 100 rfl (by decide) rfl
  ⟨(congrArg bc_module_core_t.pll_enable h.2.1).trans rfl,
   (congrArg bc_module_core_t.pll_disable h.2.2).trans rfl⟩

/-- C8: on a channel that is not initialised, has no read queue attached, or
is already Armed, `bc_uart_async_read_start` returns false and leaves the whole
state unchanged: stored timeout, task handle, registered tasks, interrupt
enables, power gate and read state. -/
theorem bc_uart_async_read_start_rejected (w : World) (channel : bc_uart_channel_t)
    (timeout : bc_tick_t)
    (h : (w._bc_uart channel).initialized = false ∨ (w._bc_uart channel).read_fifo = none ∨
      (w._bc_uart channel).async_read_in_progress = true) :
    bc_uart_async_read_start w channel timeout = (w, false) := by
  unfold bc_uart_async_read_start
  rcases h with h | h | h <;> simp [h]

/-- Witness of C8: arming `armed0` again, with another timeout. -/
theorem bc_uart_async_read_start_rejected_witness :
    (armed0._bc_uart BC_UART_UART0).async_read_in_progress = true ∧
    bc_uart_async_read_start armed0 BC_UART_UART0 5 = (armed0, false) ∧
    ((bc_uart_async_read_start armed0 BC_UART_UART0 5).1._bc_uart BC_UART_UART0).async_timeout
      = 100 :=
  ⟨rfl, bc_uart_async_read_start_rejected armed0 BC_UART_UART0 5 (Or.inr (Or.inr rfl)),
   (congrArg (fun r => (r.1._bc_uart BC_UART_UART0).async_timeout)
      (bc_uart_async_read_start_rejected armed0 BC_UART_UART0 5 (Or.inr (Or.inr rfl)))).trans
      rfl⟩

/-- C10: `bc_uart_async_read_cancel` returns false in every state; when the
channel is not initialised or not Armed the state is left unchanged, and when
it is initialised and Armed the read is cancelled (the channel is no longer
Armed) and false is returned all the same. -/
theorem bc_uart_async_read_cancel_returns_false (w : World) (channel : bc_uart_channel_t) :
    (bc_uart_async_read_cancel w channel).2 = false ∧
    ((w._bc_uart channel).initialized = false ∨
        (w._bc_uart channel).async_read_in_progress = false →
      (bc_uart_async_read_cancel w channel).1 = w) ∧
    ((w._bc_uart channel).initialized = true →
        (w._bc_uart channel).async_read_in_progress = true →
      ((bc_uart_async_read_cancel w channel).1._bc_uart channel).async_read_in_progress
        = false) := by
  unfold bc_uart_async_read_cancel
  refine ⟨?_, ?_, ?_⟩
  · simp only []
    split <;> rfl
  · intro h
    rcases h with h | h <;> simp [h]
  · intro h1 h2
    by_cases hlp : (w._bc_uart channel).usart = LPUART1
    · simp [h1, h2, hlp]
    · simp [h1, h2, hlp, bc_module_core_pll_disable]

/-- Witness of C10: cancelling the armed read of `armed0` returns false and
leaves the channel Idle; cancelling on the idle `fresh0` changes nothing. -/
theorem bc_uart_async_read_cancel_returns_false_witness :
    (bc_uart_async_read_cancel armed0 BC_UART_UART0).2 = false ∧
    ((bc_uart_async_read_cancel armed0 BC_UART_UART0).1._bc_uart
      BC_UART_UART0).async_read_in_progress = false ∧
    (bc_uart_async_read_cancel fresh0 BC_UART_UART0).1 = fresh0 :=
  ⟨(bc_uart_async_read_cancel_returns_false armed0 BC_UART_UART0).1,
   (bc_uart_async_read_cancel_returns_false armed0 BC_UART_UART0).2.2 rfl rfl,
   (bc_uart_async_read_cancel_returns_false fresh0 BC_UART_UART0).2.1 (Or.inr rfl)⟩


/-! ## Read supervisory task -/

/-- C9: a run of `_bc_uart_async_read_task` on an Armed channel, `t` being the
task the scheduler is running, re-plans that task for `now + async_timeout`,
keeps the channel Armed, and with a callback registered reports exactly one
event, `BC_UART_EVENT_ASYNC_READ_TIMEOUT` if and only if the read queue is
empty at that moment and `BC_UART_EVENT_ASYNC_READ_DATA` otherwise, whatever
made the task due; without a callback it re-plans and reports nothing. -/
theorem bc_uart_async_read_task_supervises (w : World) (param : bc_uart_channel_t)
    (fifo : bc_fifo_t) (t : bc_scheduler_task_t)
    (harmed : (w._bc_uart param).async_read_in_progress = true)
    (hfifo : (w._bc_uart param).read_fifo = some fifo)
    (hrun : pool_get w.sched.pool w.sched.current_task_id = some t) :
    ∃ w1, _bc_uart_async_read_task w param = some w1 ∧
      pool_get w1.sched.pool w.sched.current_task_id =
        some { t with tick_execution := w.sched.now + (w._bc_uart param).async_timeout } ∧
      (w1._bc_uart param).async_read_in_progress = true ∧
      (∀ h, (w._bc_uart param).event_handler = some h →
        ∃ e, w1.events = w.events ++ [e] ∧ e.handler = h ∧
          e.param = (w._bc_uart param).event_param ∧
          (e.event = BC_UART_EVENT_ASYNC_READ_TIMEOUT ↔ fifo.data = []) ∧
          (e.event = BC_UART_EVENT_ASYNC_READ_DATA ↔ fifo.data ≠ [])) ∧
      ((w._bc_uart param).event_handler = none → w1.events = w.events) := by
  cases hh : (w._bc_uart param).event_handler with
  | none =>
    have e : _bc_uart_async_read_task w param = some { w with
          sched := bc_scheduler_plan_current_relative w.sched (w._bc_uart param).async_timeout }
        := by
      simp [_bc_uart_async_read_task, hh]
    refine ⟨_, e, ?_, harmed, ?_, ?_⟩
    · simp [bc_scheduler_plan_current_relative, pool_get_plan, hrun]
    · intro h hc; cases hc
    · intro _; rfl
  | some h =>
    cases hd : fifo.data with
    | nil =>
      have e : _bc_uart_async_read_task w param = some (call_event_handler
          { w with
            sched := bc_scheduler_plan_current_relative w.sched (w._bc_uart param).async_timeout }
          h BC_UART_UART1 BC_UART_EVENT_ASYNC_READ_TIMEOUT (w._bc_uart param).event_param) := by
        simp [_bc_uart_async_read_task, hh, hfifo, bc_fifo_is_empty, hd]
      refine ⟨_, e, ?_, harmed, ?_, ?_⟩
      · simp [call_event_handler, bc_scheduler_plan_current_relative, pool_get_plan, hrun]
      · intro h2 hc
        cases hc
        exact ⟨_, rfl, rfl, rfl, by simp, by simp⟩
      · intro hc; cases hc
    | cons b r =>
      have e : _bc_uart_async_read_task w param = some (call_event_handler
          { w with
            sched := bc_scheduler_plan_current_relative w.sched (w._bc_uart param).async_timeout }
          h BC_UART_UART1 BC_UART_EVENT_ASYNC_READ_DATA (w._bc_uart param).event_param) := by
        simp [_bc_uart_async_read_task, hh, hfifo, bc_fifo_is_empty, hd]
      refine ⟨_, e, ?_, harmed, ?_, ?_⟩
      · simp [call_event_handler, bc_scheduler_plan_current_relative, pool_get_plan, hrun]
      · intro h2 hc
        cases hc
        exact ⟨_, rfl, rfl, rfl, by simp, by simp⟩
      · intro hc; cases hc


/-- Witness of C9: the read task of `armed0` runs with an empty read queue. -/
theorem bc_uart_async_read_task_supervises_witness :
    ∃ w1, _bc_uart_async_read_task armed0 BC_UART_UART0 = some w1 ∧
      pool_get w1.sched.pool 0 = some ⟨task_fn.async_read_task, BC_UART_UART0, 100⟩ ∧
      (w1._bc_uart BC_UART_UART0).async_read_in_progress = true ∧
      ∃ e, w1.events = [e] ∧ e.event = BC_UART_EVENT_ASYNC_READ_TIMEOUT := by
  obtain ⟨w1, h1, h2, h3, h4, _⟩ := bc_uart_async_read_task_supervises armed0 BC_UART_UART0
    ⟨4, []⟩ ⟨task_fn.async_read_task, BC_UART_UART0, 100⟩ rfl rfl rfl
  obtain ⟨e, he1, _, _, he4, _⟩ := h4 7 rfl
  exact ⟨w1, h1, h2, h3, e, he1, he4.2 rfl⟩


/-! ## Write ordering -/

theorem bc_fifo_write_fits (q : bc_fifo_t) (b : List Nat)
    (hfit : q.data.length + b.length ≤ q.capacity) :
    bc_fifo_write q b = ({ q with data := q.data ++ b }, b.length) := by
  have hmin : min b.length (q.capacity - q.data.length) = b.length := by
    apply Nat.min_eq_left; omega
  simp [bc_fifo_write, hmin]

theorem bc_uart_async_write_fits (w : World) (channel : bc_uart_channel_t) (b : List Nat)
    (q : bc_fifo_t)
    (hinit : (w._bc_uart channel).initialized = true)
    (hq : (w._bc_uart channel).write_fifo = some q)
    (hfit : q.data.length + b.length ≤ q.capacity) :
    (bc_uart_async_write w channel b).2 = b.length ∧
    ((bc_uart_async_write w channel b).1._bc_uart channel).write_fifo =
      some { q with data := q.data ++ b } ∧
    ((bc_uart_async_write w channel b).1._bc_uart channel).initialized = true ∧
    ((bc_uart_async_write w channel b).1._bc_uart channel).usart = (w._bc_uart channel).usart ∧
    ((bc_uart_async_write w channel b).1._bc_uart channel).read_fifo =
      (w._bc_uart channel).read_fifo ∧
    ((bc_uart_async_write w channel b).1.periph (w._bc_uart channel).usart).TDR =
      (w.periph (w._bc_uart channel).usart).TDR ∧
    (b ≠ [] ∨ (w.periph (w._bc_uart channel).usart).CR1_TXEIE = true →
      ((bc_uart_async_write w channel b).1.periph (w._bc_uart channel).usart).CR1_TXEIE
        = true) := by
  unfold bc_uart_async_write
  simp only [hinit, hq, bc_fifo_write_fits q b hfit, Bool.not_true, Bool.false_eq_true, if_false]
  cases b with
  | nil => simp [hinit]
  | cons x r =>
    cases hb : (w._bc_uart channel).async_write_in_progress <;>
    by_cases hlp : (w._bc_uart channel).usart = LPUART1 <;>
    simp [hinit, hb, hlp, bc_module_core_deep_sleep_disable, bc_module_core_pll_enable]


theorem async_writes_fit (channel : bc_uart_channel_t) (bufs : List (List Nat)) :
    ∀ (w : World) (q : bc_fifo_t),
      (w._bc_uart channel).initialized = true →
      (w._bc_uart channel).write_fifo = some q →
      q.data.length + bufs.flatten.length ≤ q.capacity →
      (async_writes w channel bufs).2 = bufs.map List.length ∧
      ((async_writes w channel bufs).1._bc_uart channel).write_fifo =
        some { q with data := q.data ++ bufs.flatten } ∧
      ((async_writes w channel bufs).1._bc_uart channel).usart = (w._bc_uart channel).usart ∧
      ((async_writes w channel bufs).1._bc_uart channel).read_fifo =
        (w._bc_uart channel).read_fifo ∧
      ((async_writes w channel bufs).1.periph (w._bc_uart channel).usart).TDR =
        (w.periph (w._bc_uart channel).usart).TDR ∧
      (bufs.flatten ≠ [] ∨ (w.periph (w._bc_uart channel).usart).CR1_TXEIE = true →
        ((async_writes w channel bufs).1.periph (w._bc_uart channel).usart).CR1_TXEIE
          = true) := by
  induction bufs with
  | nil =>
    intro w q _ hq _
    simp [async_writes, hq]
  | cons b rest ih =>
    intro w q hinit hq hfit
    simp only [List.flatten_cons, List.length_append] at hfit
    obtain ⟨h1, h2, h3, h4, h5, h6, h7⟩ :=
      bc_uart_async_write_fits w channel b q hinit hq (by omega)
    obtain ⟨g1, g2, g4, g5, g6, g7⟩ :=
      ih (bc_uart_async_write w channel b).1 { q with data := q.data ++ b } h3 h2
        (by simp only [List.length_append]; omega)
    simp only [async_writes, List.map_cons, List.flatten_cons]
    rw [h4] at g4 g6 g7
    refine ⟨by rw [h1, g1], by rw [g2, List.append_assoc], g4, g5.trans h5, g6.trans h6, ?_⟩
    intro hne
    apply g7
    by_cases hb : b = []
    · subst hb
      rcases hne with hne | hne
      · left; simpa using hne
      · right; exact h7 (Or.inr hne)
    · right; exact h7 (Or.inl hb)

theorem irq_transmit_pop (w : World) (channel : bc_uart_channel_t) (q : bc_fifo_t)
    (x : Nat) (rest : List Nat) (tc rxne : Bool) (rdr : Nat)
    (hq : (w._bc_uart channel).write_fifo = some q)
    (hdata : q.data = x :: rest)
    (hen : (w.periph (w._bc_uart channel).usart).CR1_TXEIE = true)
    (hrx : (w._bc_uart channel).read_fifo = none → rxne = false) :
    ∃ w1, exec w channel (Op.irq true tc rxne rdr) = some w1 ∧
      (w1._bc_uart channel).write_fifo = some { q with data := rest } ∧
      (w1.periph (w._bc_uart channel).usart).TDR =
        (w.periph (w._bc_uart channel).usart).TDR ++ [x] ∧
      (w1.periph (w._bc_uart channel).usart).CR1_TXEIE = true ∧
      (w1._bc_uart channel).usart = (w._bc_uart channel).usart ∧
      ((w1._bc_uart channel).read_fifo = none → (w._bc_uart channel).read_fifo = none) := by
  cases hr : (w._bc_uart channel).read_fifo with
  | none =>
    have hx := hrx hr
    subst hx
    cases htc : (w.periph (w._bc_uart channel).usart).CR1_TCIE <;> cases tc <;>
    simp [exec, _bc_uart_irq_handler, hw_status, irq_transmit, irq_complete, irq_receive,
      bc_fifo_irq_read, bc_fifo_read, hq, hdata, hen, htc, hr, bc_scheduler_plan_now]
  | some rq =>
    cases htc : (w.periph (w._bc_uart channel).usart).CR1_TCIE <;> cases tc <;>
    cases hre : (w.periph (w._bc_uart channel).usart).CR1_RXNEIE <;> cases rxne <;>
    simp [exec, _bc_uart_irq_handler, hw_status, irq_transmit, irq_complete, irq_receive,
      bc_fifo_irq_read, bc_fifo_read, hq, hdata, hen, htc, hre, hr, bc_scheduler_plan_now]


theorem transmit_irqs_drain (channel : bc_uart_channel_t) (data : List Nat) :
    ∀ (w : World) (q : bc_fifo_t) (flags : List (Bool × Bool × Nat)),
      (w._bc_uart channel).write_fifo = some q →
      q.data = data →
      (data ≠ [] → (w.periph (w._bc_uart channel).usart).CR1_TXEIE = true) →
      flags.length = data.length →
      ((w._bc_uart channel).read_fifo = none → ∀ f ∈ flags, f.2.1 = false) →
      ∃ w2, transmit_irqs w channel flags = some w2 ∧
        (w2._bc_uart channel).write_fifo = some { q with data := [] } ∧
        (w2.periph (w._bc_uart channel).usart).TDR =
          (w.periph (w._bc_uart channel).usart).TDR ++ data := by
  induction data with
  | nil =>
    intro w q flags hq hdata _ hlen _
    have hf : flags = [] := List.eq_nil_of_length_eq_zero hlen
    subst hf
    refine ⟨w, rfl, ?_, by simp⟩
    rw [hq, ← hdata]
  | cons x rest ih =>
    intro w q flags hq hdata hen hlen hrx
    cases flags with
    | nil => simp at hlen
    | cons f fs =>
      obtain ⟨w1, e1, k1, k2, k3, k4, k5⟩ :=
        irq_transmit_pop w channel q x rest f.1 f.2.1 f.2.2 hq hdata (hen (by simp))
          (fun hn => hrx hn f (by simp))
      obtain ⟨w2, e2, m1, m2⟩ := ih w1 { q with data := rest } fs k1 rfl
        (fun _ => by rw [k4]; exact k3) (by simpa using hlen)
        (fun hn f2 hf2 => hrx (k5 hn) f2 (by simp [hf2]))
      refine ⟨w2, by simp [transmit_irqs, e1, e2], m1, ?_⟩
      rw [k4] at m2
      rw [m2, k2, List.append_assoc]; rfl


/-- C2: write ordering.  On an initialised channel whose attached write queue
is empty and can hold all the bytes of `bufs`, the successive calls of
`bc_uart_async_write` each return the full length of their buffer, and the
following transmit-empty interrupt requests, one per byte, all succeed and
load into the transmit data register exactly the concatenation of the buffers,
in call order, after which the queue is empty.  The other status flags at each
request are arbitrary (the receive flag only when a read queue is attached). -/
theorem bc_uart_write_ordering (w : World) (channel : bc_uart_channel_t) (q : bc_fifo_t)
    (bufs : List (List Nat)) (flags : List (Bool × Bool × Nat))
    (hinit : (w._bc_uart channel).initialized = true)
    (hq : (w._bc_uart channel).write_fifo = some q)
    (hempty : q.data = [])
    (hcap : bufs.flatten.length ≤ q.capacity)
    (hlen : flags.length = bufs.flatten.length)
    (hrx : (w._bc_uart channel).read_fifo = none → ∀ f ∈ flags, f.2.1 = false) :
    (async_writes w channel bufs).2 = bufs.map List.length ∧
    ∃ w2, transmit_irqs (async_writes w channel bufs).1 channel flags = some w2 ∧
      (w2.periph (w._bc_uart channel).usart).TDR =
        (w.periph (w._bc_uart channel).usart).TDR ++ bufs.flatten ∧
      (w2._bc_uart channel).write_fifo = some { q with data := [] } := by
  obtain ⟨g1, g2, g4, g5, g6, g7⟩ :=
    async_writes_fit channel bufs w q hinit hq (by rw [hempty]; simpa using hcap)
  refine ⟨g1, ?_⟩
  rw [hempty, List.nil_append] at g2
  obtain ⟨w2, e2, m1, m2⟩ :=
    transmit_irqs_drain channel bufs.flatten (async_writes w channel bufs).1
      { q with data := bufs.flatten } flags g2 rfl
      (fun hne => by rw [g4]; exact g7 (Or.inl hne)) hlen
      (fun hn => hrx (by rw [← g5]; exact hn))
  rw [g4, g6] at m2
  exact ⟨w2, e2, m2, m1⟩

/-- Witness of C2: five bytes enqueued on `fresh0` in one call; the call
returns 5 and five transmit-empty requests load 1, 2, 3, 4, 5 in order. -/
theorem bc_uart_write_ordering_witness :
    (async_writes fresh0 BC_UART_UART0 [[1, 2, 3, 4, 5]]).2 = [5] ∧
    ∃ w2, transmit_irqs (async_writes fresh0 BC_UART_UART0 [[1, 2, 3, 4, 5]]).1 BC_UART_UART0
        [(false, false, 0), (false, false, 0), (false, false, 0), (false, false, 0),
          (false, false, 0)] = some w2 ∧
      (w2.periph USART4).TDR = [1, 2, 3, 4, 5] ∧
      (w2._bc_uart BC_UART_UART0).write_fifo = some ⟨8, []⟩ :=
  bc_uart_write_ordering fresh0 BC_UART_UART0 ⟨8, []⟩ [[1, 2, 3, 4, 5]]
    [(false, false, 0), (false, false, 0), (false, false, 0), (false, false, 0),
      (false, false, 0)] rfl rfl rfl (by decide) rfl (by intro h; cases h)


/-! ## Power-gate pairing -/

theorem pool_ok_plan (pool : List (Option bc_scheduler_task_t)) (c : bc_uart_channel_t)
    (wip : Bool) (wid : Nat) (rip : Bool) (rid : Nat) (i : Nat) (tick : bc_tick_t)
    (h : pool_ok pool c wip wid rip rid) :
    pool_ok (pool_plan pool i tick) c wip wid rip rid := by
  obtain ⟨h1, h2, h3⟩ := h
  refine ⟨?_, ?_, ?_⟩
  · intro j t hj
    rw [pool_get_plan] at hj
    by_cases e : j = i
    · subst e
      simp only [if_true] at hj
      cases hp : pool_get pool j with
      | none => simp [hp] at hj
      | some u =>
        simp only [hp, Option.map_some', Option.some.injEq] at hj
        subst hj
        exact h1 j u hp
    · simp only [e, if_false] at hj
      exact h1 j t hj
  · intro hw
    obtain ⟨t, ht, ht2⟩ := h2 hw
    by_cases e : wid = i
    · subst e
      exact ⟨{ t with tick_execution := tick }, by rw [pool_get_plan, if_pos rfl, ht]; rfl, ht2⟩
    · exact ⟨t, by rw [pool_get_plan, if_neg e, ht], ht2⟩
  · intro hr
    obtain ⟨t, ht, ht2⟩ := h3 hr
    by_cases e : rid = i
    · subst e
      exact ⟨{ t with tick_execution := tick }, by rw [pool_get_plan, if_pos rfl, ht]; rfl, ht2⟩
    · exact ⟨t, by rw [pool_get_plan, if_neg e, ht], ht2⟩

theorem pool_ok_register_write (pool : List (Option bc_scheduler_task_t))
    (c : bc_uart_channel_t) (wid : Nat) (rip : Bool) (rid : Nat) (tick : bc_tick_t)
    (h : pool_ok pool c false wid rip rid) :
    pool_ok (pool_set pool (pool_free pool) (some ⟨task_fn.async_write_task, c, tick⟩)) c
      true (pool_free pool) rip rid := by
  obtain ⟨h1, _, h3⟩ := h
  refine ⟨?_, ?_, ?_⟩
  · intro j t hj
    rw [pool_get_set] at hj
    by_cases e : j = pool_free pool
    · simp only [e, if_true, Option.some.injEq] at hj
      subst hj
      exact ⟨rfl, Or.inl ⟨rfl, rfl, e⟩⟩
    · simp only [e, if_false] at hj
      obtain ⟨p1, p2⟩ := h1 j t hj
      rcases p2 with ⟨_, p, _⟩ | p
      · cases p
      · exact ⟨p1, Or.inr p⟩
  · intro _
    exact ⟨⟨task_fn.async_write_task, c, tick⟩, by rw [pool_get_set, if_pos rfl], rfl⟩
  · intro hr
    obtain ⟨t, ht, ht2⟩ := h3 hr
    have e : rid ≠ pool_free pool := by
      intro e
      rw [e, pool_get_free] at ht
      cases ht
    exact ⟨t, by simp [pool_get_set, e, ht], ht2⟩

theorem pool_ok_register_read (pool : List (Option bc_scheduler_task_t))
    (c : bc_uart_channel_t) (wip : Bool) (wid : Nat) (rid : Nat) (tick : bc_tick_t)
    (h : pool_ok pool c wip wid false rid) :
    pool_ok (pool_set pool (pool_free pool) (some ⟨task_fn.async_read_task, c, tick⟩)) c
      wip wid true (pool_free pool) := by
  obtain ⟨h1, h2, _⟩ := h
  refine ⟨?_, ?_, ?_⟩
  · intro j t hj
    rw [pool_get_set] at hj
    by_cases e : j = pool_free pool
    · simp only [e, if_true, Option.some.injEq] at hj
      subst hj
      exact ⟨rfl, Or.inr ⟨rfl, rfl, e⟩⟩
    · simp only [e, if_false] at hj
      obtain ⟨p1, p2⟩ := h1 j t hj
      rcases p2 with p | ⟨_, p, _⟩
      · exact ⟨p1, Or.inl p⟩
      · cases p
  · intro hw
    obtain ⟨t, ht, ht2⟩ := h2 hw
    have e : wid ≠ pool_free pool := by
      intro e
      rw [e, pool_get_free] at ht
      cases ht
    exact ⟨t, by simp [pool_get_set, e, ht], ht2⟩
  · intro _
    exact ⟨⟨task_fn.async_read_task, c, tick⟩, by rw [pool_get_set, if_pos rfl], rfl⟩

theorem pool_ok_unregister_write (pool : List (Option bc_scheduler_task_t))
    (c : bc_uart_channel_t) (wid : Nat) (rip : Bool) (rid : Nat)
    (h : pool_ok pool c true wid rip rid) :
    pool_ok (pool_set pool wid none) c false wid rip rid := by
  obtain ⟨h1, h2, h3⟩ := h
  obtain ⟨tw, htw, htw2⟩ := h2 rfl
  refine ⟨?_, ?_, ?_⟩
  · intro j t hj
    rw [pool_get_set] at hj
    by_cases e : j = wid
    · simp [e] at hj
    · simp only [e, if_false] at hj
      obtain ⟨p1, p2⟩ := h1 j t hj
      rcases p2 with ⟨_, _, p⟩ | p
      · exact absurd p e
      · exact ⟨p1, Or.inr p⟩
  · intro hc; cases hc
  · intro hr
    obtain ⟨t, ht, ht2⟩ := h3 hr
    have e : rid ≠ wid := by
      intro e
      rw [e, htw] at ht
      cases ht
      rw [htw2] at ht2
      cases ht2
    exact ⟨t, by simp [pool_get_set, e, ht], ht2⟩

theorem pool_ok_unregister_read (pool : List (Option bc_scheduler_task_t))
    (c : bc_uart_channel_t) (wip : Bool) (wid : Nat) (rid : Nat)
    (h : pool_ok pool c wip wid true rid) :
    pool_ok (pool_set pool rid none) c wip wid false rid := by
  obtain ⟨h1, h2, h3⟩ := h
  obtain ⟨tr, htr, htr2⟩ := h3 rfl
  refine ⟨?_, ?_, ?_⟩
  · intro j t hj
    rw [pool_get_set] at hj
    by_cases e : j = rid
    · simp [e] at hj
    · simp only [e, if_false] at hj
      obtain ⟨p1, p2⟩ := h1 j t hj
      rcases p2 with p | ⟨_, _, p⟩
      · exact ⟨p1, Or.inl p⟩
      · exact absurd p e
  · intro hw
    obtain ⟨t, ht, ht2⟩ := h2 hw
    have e : wid ≠ rid := by
      intro e
      rw [e, htr] at ht
      cases ht
      rw [htr2] at ht2
      cases ht2
    exact ⟨t, by simp [pool_get_set, e, ht], ht2⟩
  · intro hc; cases hc


theorem paired_async_write (w : World) (c : bc_uart_channel_t) (buffer : List Nat)
    (h : paired w c) :
    paired (bc_uart_async_write w c buffer).1 c ∧
    step_paired w (bc_uart_async_write w c buffer).1 c := by
  obtain ⟨hi, hwf, hrf, hp, hb1, hb2⟩ := h
  cases hq : (w._bc_uart c).write_fifo with
  | none => exact absurd hq hwf
  | some q =>
    unfold bc_uart_async_write
    simp only [hi, hq, Bool.not_true, Bool.false_eq_true, if_false]
    by_cases hz : (bc_fifo_write q buffer).2 = 0
    · simp only [hz, bne_self_eq_false, Bool.false_eq_true, if_false]
      refine ⟨⟨?_, ?_, ?_, ?_, ?_⟩, ?_⟩
      · simp [hi]
      · simp
      · simpa using hrf
      · simpa using hp
      · simpa [gate_balanced] using And.intro hb1 hb2
      · simp [step_paired, active]
    · have hnz : ((bc_fifo_write q buffer).2 != 0) = true := by simpa using hz
      simp only [hnz, if_true]
      cases hw : (w._bc_uart c).async_write_in_progress with
      | false =>
        rw [hw] at hp
        have hp2 := pool_ok_register_write _ _ _ _ _ BC_TICK_INFINITY hp
        simp only [hw, active] at hb1 hb2
        by_cases hlp : (w._bc_uart c).usart = LPUART1
        · simp only [hlp, if_true] at hb1 hb2
          refine ⟨⟨?_, ?_, ?_, ?_, ?_⟩, ?_⟩
          · simp [hi, hlp, bc_module_core_deep_sleep_disable]
          · simp [hlp, bc_module_core_deep_sleep_disable]
          · simpa [hlp, bc_module_core_deep_sleep_disable] using hrf
          · simpa [hlp, bc_module_core_deep_sleep_disable, bc_scheduler_register] using hp2
          · simp [gate_balanced, hlp, bc_module_core_deep_sleep_disable, active, hb1, hb2]
          · simp [step_paired, hlp, hw, bc_module_core_deep_sleep_disable, active]
        · simp only [hlp, if_false] at hb1 hb2
          refine ⟨⟨?_, ?_, ?_, ?_, ?_⟩, ?_⟩
          · simp [hi, hlp, bc_module_core_pll_enable]
          · simp [hlp, bc_module_core_pll_enable]
          · simpa [hlp, bc_module_core_pll_enable] using hrf
          · simpa [hlp, bc_module_core_pll_enable, bc_scheduler_register] using hp2
          · simp [gate_balanced, hlp, bc_module_core_pll_enable, active, hb1, hb2]
            omega
          · simp [step_paired, hlp, hw, bc_module_core_pll_enable, active]
      | true =>
        have hp2 := pool_ok_plan _ _ _ _ _ _ (w._bc_uart c).async_write_task_id
          BC_TICK_INFINITY hp
        refine ⟨⟨?_, ?_, ?_, ?_, ?_⟩, ?_⟩
        · simp [hi]
        · simp
        · simpa using hrf
        · simpa [hw, bc_scheduler_plan_absolute] using hp2
        · simpa [gate_balanced, hw] using And.intro hb1 hb2
        · simp [step_paired, hw, active]


theorem paired_async_read_start (w : World) (c : bc_uart_channel_t) (timeout : bc_tick_t)
    (h : paired w c) :
    paired (bc_uart_async_read_start w c timeout).1 c ∧
    step_paired w (bc_uart_async_read_start w c timeout).1 c := by
  obtain ⟨hi, hwf, hrf, hp, hb1, hb2⟩ := h
  cases hq : (w._bc_uart c).read_fifo with
  | none => exact absurd hq hrf
  | some q =>
    unfold bc_uart_async_read_start
    cases hr : (w._bc_uart c).async_read_in_progress with
    | true =>
      simp only [hi, hq, hr, Bool.not_true, Option.isNone_some, Bool.or_true, if_true]
      refine ⟨⟨hi, hwf, hrf, hp, hb1, hb2⟩, ?_⟩
      simp [step_paired, active]
    | false =>
      rw [hr] at hp
      have hp2 := pool_ok_register_read _ _ _ _ _ timeout hp
      simp only [hr, active] at hb1 hb2
      by_cases hlp : (w._bc_uart c).usart = LPUART1
      · simp only [hlp, if_true] at hb1 hb2
        refine ⟨⟨?_, ?_, ?_, ?_, ?_⟩, ?_⟩
        · simp [hi, hq, hr, hlp]
        · simpa [hi, hq, hr, hlp] using hwf
        · simp [hi, hq, hr, hlp]
        · simpa [hi, hq, hr, hlp, bc_scheduler_register] using hp2
        · simp [gate_balanced, hi, hq, hr, hlp, active, hb1, hb2]
        · simp [step_paired, hi, hq, hr, hlp, active]
      · simp only [hlp, if_false] at hb1 hb2
        refine ⟨⟨?_, ?_, ?_, ?_, ?_⟩, ?_⟩
        · simp [hi, hq, hr, hlp, bc_module_core_pll_enable]
        · simpa [hi, hq, hr, hlp, bc_module_core_pll_enable] using hwf
        · simp [hi, hq, hr, hlp, bc_module_core_pll_enable]
        · simpa [hi, hq, hr, hlp, bc_module_core_pll_enable, bc_scheduler_register] using hp2
        · simp [gate_balanced, hi, hq, hr, hlp, bc_module_core_pll_enable, active, hb1, hb2]
          omega
        · simp [step_paired, hi, hq, hr, hlp, bc_module_core_pll_enable, active]

theorem paired_async_read_cancel (w : World) (c : bc_uart_channel_t) (h : paired w c) :
    paired (bc_uart_async_read_cancel w c).1 c ∧
    step_paired w (bc_uart_async_read_cancel w c).1 c := by
  obtain ⟨hi, hwf, hrf, hp, hb1, hb2⟩ := h
  unfold bc_uart_async_read_cancel
  cases hr : (w._bc_uart c).async_read_in_progress with
  | false =>
    simp only [hi, hr, Bool.not_true, Bool.not_false, Bool.or_true, if_true]
    refine ⟨⟨hi, hwf, hrf, hp, hb1, hb2⟩, ?_⟩
    simp [step_paired, hr, active]
  | true =>
    rw [hr] at hp
    have hp2 := pool_ok_unregister_read _ _ _ _ _ hp
    simp only [hr, active] at hb1 hb2
    by_cases hlp : (w._bc_uart c).usart = LPUART1
    · simp only [hlp, if_true] at hb1 hb2
      refine ⟨⟨?_, ?_, ?_, ?_, ?_⟩, ?_⟩
      · simp [hi, hr, hlp]
      · simpa [hi, hr, hlp] using hwf
      · simpa [hi, hr, hlp] using hrf
      · simpa [hi, hr, hlp, bc_scheduler_unregister] using hp2
      · simp [gate_balanced, hi, hr, hlp, active, hb1, hb2]
      · simp [step_paired, hi, hr, hlp, active]
    · simp only [hlp, if_false] at hb1 hb2
      refine ⟨⟨?_, ?_, ?_, ?_, ?_⟩, ?_⟩
      · simp [hi, hr, hlp, bc_module_core_pll_disable]
      · simpa [hi, hr, hlp, bc_module_core_pll_disable] using hwf
      · simpa [hi, hr, hlp, bc_module_core_pll_disable] using hrf
      · simpa [hi, hr, hlp, bc_module_core_pll_disable, bc_scheduler_unregister] using hp2
      · simp [gate_balanced, hi, hr, hlp, bc_module_core_pll_disable, active, hb1, hb2]
        omega
      · simp [step_paired, hi, hr, hlp, bc_module_core_pll_disable, active]

theorem paired_async_read (w : World) (c : bc_uart_channel_t) (length : Nat)
    (h : paired w c) :
    ∃ r, bc_uart_async_read w c length = some r ∧ paired r.1 c ∧ step_paired w r.1 c := by
  obtain ⟨hi, hwf, hrf, hp, hb1, hb2⟩ := h
  cases hq : (w._bc_uart c).read_fifo with
  | none => exact absurd hq hrf
  | some q =>
    unfold bc_uart_async_read
    cases hr : (w._bc_uart c).async_read_in_progress with
    | false =>
      refine ⟨(w, 0, []), by simp [hi, hr], ⟨hi, hwf, hrf, hp, hb1, hb2⟩, ?_⟩
      simp [step_paired, active]
    | true =>
      simp only [hi, hr, hq, Bool.not_true, Bool.or_false, Bool.false_eq_true, if_false]
      refine ⟨_, rfl, ⟨?_, ?_, ?_, ?_, ?_⟩, ?_⟩
      · simp [hi]
      · simpa using hwf
      · simp
      · simpa [hr] using hp
      · simpa [gate_balanced, hr] using And.intro hb1 hb2
      · simp [step_paired, hr, active]

theorem paired_tick (w : World) (c : bc_uart_channel_t) (d : Nat) (h : paired w c) :
    paired (tick_advance w d) c ∧ step_paired w (tick_advance w d) c := by
  refine ⟨h, ?_⟩
  simp [step_paired, tick_advance, active]


theorem gate_untouched_step (w w1 : World) (c : bc_uart_channel_t)
    (h : gate_untouched w w1 c) : step_paired w w1 c := by
  obtain ⟨h1, h2, h3, h4⟩ := h
  simp [step_paired, h1, h2, h3, h4, active]

theorem gate_untouched_trans (w w1 w2 : World) (c : bc_uart_channel_t)
    (h : gate_untouched w w1 c) (g : gate_untouched w1 w2 c) : gate_untouched w w2 c := by
  obtain ⟨h1, h2, h3, h4⟩ := h
  obtain ⟨g1, g2, g3, g4⟩ := g
  exact ⟨g1.trans h1, g2.trans h2, g3.trans h3, g4.trans h4⟩

theorem paired_hw_status (w : World) (c : bc_uart_channel_t) (txe tc rxne : Bool) (rdr : Nat)
    (h : paired w c) :
    paired (hw_status w (w._bc_uart c).usart txe tc rxne rdr) c ∧
    gate_untouched w (hw_status w (w._bc_uart c).usart txe tc rxne rdr) c :=
  ⟨h, rfl, rfl, rfl, rfl⟩

theorem paired_irq_transmit (w : World) (c : bc_uart_channel_t) (h : paired w c) :
    ∃ w1, irq_transmit w c = some w1 ∧ paired w1 c ∧ gate_untouched w w1 c := by
  obtain ⟨hi, hwf, hrf, hp, hb1, hb2⟩ := h
  cases hq : (w._bc_uart c).write_fifo with
  | none => exact absurd hq hwf
  | some q =>
    unfold irq_transmit
    simp only [hq]
    split
    · split
      · refine ⟨_, rfl, ⟨?_, ?_, ?_, ?_, ?_⟩, ?_⟩
        · simp [hi]
        · simp
        · simpa using hrf
        · simpa using hp
        · simpa [gate_balanced] using And.intro hb1 hb2
        · simp [gate_untouched]
      · refine ⟨_, rfl, ⟨?_, ?_, ?_, ?_, ?_⟩, ?_⟩
        · simp [hi]
        · simp [hq]
        · simpa using hrf
        · simpa using hp
        · simpa [gate_balanced] using And.intro hb1 hb2
        · simp [gate_untouched]
    · exact ⟨w, rfl, ⟨hi, hwf, hrf, hp, hb1, hb2⟩, rfl, rfl, rfl, rfl⟩

theorem paired_irq_complete (w : World) (c : bc_uart_channel_t) (h : paired w c) :
    paired (irq_complete w c) c ∧ gate_untouched w (irq_complete w c) c := by
  obtain ⟨hi, hwf, hrf, hp, hb1, hb2⟩ := h
  unfold irq_complete
  simp only []
  split
  · have hp2 := pool_ok_plan _ _ _ _ _ _ (w._bc_uart c).async_write_task_id w.sched.now hp
    refine ⟨⟨?_, ?_, ?_, ?_, ?_⟩, ?_⟩
    · simp [hi]
    · simpa using hwf
    · simpa using hrf
    · simpa [bc_scheduler_plan_now] using hp2
    · simpa [gate_balanced] using And.intro hb1 hb2
    · simp [gate_untouched]
  · exact ⟨⟨hi, hwf, hrf, hp, hb1, hb2⟩, rfl, rfl, rfl, rfl⟩

theorem paired_irq_receive (w : World) (c : bc_uart_channel_t) (h : paired w c) :
    ∃ w1, irq_receive w c = some w1 ∧ paired w1 c ∧ gate_untouched w w1 c := by
  obtain ⟨hi, hwf, hrf, hp, hb1, hb2⟩ := h
  cases hq : (w._bc_uart c).read_fifo with
  | none => exact absurd hq hrf
  | some q =>
    unfold irq_receive
    simp only [hq]
    split
    · have hp2 := pool_ok_plan _ _ _ _ _ _ (w._bc_uart c).async_read_task_id w.sched.now hp
      refine ⟨_, rfl, ⟨?_, ?_, ?_, ?_, ?_⟩, ?_⟩
      · simp [hi]
      · simpa using hwf
      · simp
      · simpa [bc_scheduler_plan_now] using hp2
      · simpa [gate_balanced] using And.intro hb1 hb2
      · simp [gate_untouched]
    · exact ⟨w, rfl, ⟨hi, hwf, hrf, hp, hb1, hb2⟩, rfl, rfl, rfl, rfl⟩

theorem paired_irq (w : World) (c : bc_uart_channel_t) (txe tc rxne : Bool) (rdr : Nat)
    (h : paired w c) :
    ∃ w1, exec w c (Op.irq txe tc rxne rdr) = some w1 ∧ paired w1 c ∧
      gate_untouched w w1 c := by
  obtain ⟨a1, a2⟩ := paired_hw_status w c txe tc rxne rdr h
  obtain ⟨w1, e1, b1, b2⟩ := paired_irq_transmit _ c a1
  obtain ⟨c1, c2⟩ := paired_irq_complete w1 c b1
  obtain ⟨w3, e3, d1, d2⟩ := paired_irq_receive _ c c1
  refine ⟨w3, ?_, d1, ?_⟩
  · simp [exec, _bc_uart_irq_handler, e1, e3]
  · exact gate_untouched_trans _ _ _ c
      (gate_untouched_trans _ _ _ c (gate_untouched_trans _ _ _ c a2 b2) c2) d2


theorem paired_write_task (w : World) (c : bc_uart_channel_t) (h : paired w c)
    (hw : (w._bc_uart c).async_write_in_progress = true) :
    paired (_bc_uart_async_write_task w c) c ∧
    step_paired w (_bc_uart_async_write_task w c) c ∧
    write_done_once w (_bc_uart_async_write_task w c) c := by
  obtain ⟨hi, hwf, hrf, hp, hb1, hb2⟩ := h
  rw [hw] at hp
  have hp2 := pool_ok_unregister_write _ _ _ _ _ hp
  simp only [hw, active] at hb1 hb2
  cases hh : (w._bc_uart c).event_handler <;>
  by_cases hlp : (w._bc_uart c).usart = LPUART1
  all_goals
    unfold _bc_uart_async_write_task
    simp only [hh]
    simp only [hlp, if_true, if_false] at hb1 hb2
    refine ⟨⟨?_, ?_, ?_, ?_, ?_⟩, ?_, ?_⟩
    · simp [hi, hlp, bc_module_core_deep_sleep_enable, bc_module_core_pll_disable,
        call_event_handler]
    · simpa [hlp, bc_module_core_deep_sleep_enable, bc_module_core_pll_disable,
        call_event_handler] using hwf
    · simpa [hlp, bc_module_core_deep_sleep_enable, bc_module_core_pll_disable,
        call_event_handler] using hrf
    · simpa [hlp, bc_module_core_deep_sleep_enable, bc_module_core_pll_disable,
        call_event_handler, bc_scheduler_unregister] using hp2
    · simp [gate_balanced, hlp, bc_module_core_deep_sleep_enable, bc_module_core_pll_disable,
        call_event_handler, active, hb1, hb2]
      try omega
    · simp [step_paired, hw, hlp, bc_module_core_deep_sleep_enable,
        bc_module_core_pll_disable, call_event_handler, active]
    · simp [write_done_once, hw, hh, hlp, bc_module_core_deep_sleep_enable,
        bc_module_core_pll_disable, call_event_handler]
      try omega

theorem paired_read_task (w : World) (c : bc_uart_channel_t) (h : paired w c) :
    ∃ w1, _bc_uart_async_read_task w c = some w1 ∧ paired w1 c ∧ gate_untouched w w1 c := by
  obtain ⟨hi, hwf, hrf, hp, hb1, hb2⟩ := h
  have hp2 := pool_ok_plan _ _ _ _ _ _ w.sched.current_task_id
    (w.sched.now + (w._bc_uart c).async_timeout) hp
  cases hq : (w._bc_uart c).read_fifo with
  | none => exact absurd hq hrf
  | some q =>
    unfold _bc_uart_async_read_task
    simp only [hq]
    cases hh : (w._bc_uart c).event_handler with
    | none => exact ⟨_, rfl, ⟨hi, hwf, hrf, hp2, hb1, hb2⟩, rfl, rfl, rfl, rfl⟩
    | some f =>
      simp only []
      split
      · exact ⟨_, rfl, ⟨hi, hwf, hrf, hp2, hb1, hb2⟩, rfl, rfl, rfl, rfl⟩
      · exact ⟨_, rfl, ⟨hi, hwf, hrf, hp2, hb1, hb2⟩, rfl, rfl, rfl, rfl⟩

theorem paired_run (w : World) (c : bc_uart_channel_t) (id : Nat) (h : paired w c) :
    ∃ w1, bc_scheduler_run_task w id = some w1 ∧ paired w1 c ∧ step_paired w w1 c ∧
      (∀ t, pool_get w.sched.pool id = some t → t.task = task_fn.async_write_task →
        t.tick_execution ≤ w.sched.now → write_done_once w w1 c) := by
  have hp := h.2.2.2.1
  unfold bc_scheduler_run_task
  cases ht : pool_get w.sched.pool id with
  | none =>
    refine ⟨w, rfl, h, gate_untouched_step _ _ _ ⟨rfl, rfl, rfl, rfl⟩, ?_⟩
    intro t hc; cases hc
  | some t =>
    obtain ⟨hpar, hkind⟩ := hp.1 id t ht
    by_cases hdue : t.tick_execution ≤ w.sched.now
    · simp only [hdue, if_true]
      have h1 : paired { w with sched := { w.sched with current_task_id := id } } c := h
      rcases hkind with ⟨k1, k2, _⟩ | ⟨k1, _, _⟩
      · obtain ⟨a1, a2, a3⟩ := paired_write_task _ c h1 k2
        rw [k1, hpar]
        refine ⟨_, rfl, a1, a2, ?_⟩
        intro t2 _ _ _
        exact a3
      · obtain ⟨w1, e1, b1, b2⟩ := paired_read_task _ c h1
        rw [k1, hpar]
        refine ⟨w1, e1, b1, gate_untouched_step _ _ _ b2, ?_⟩
        intro t2 ht2 hk _
        cases ht2
        rw [k1] at hk
        cases hk
    · simp only [hdue, if_false]
      refine ⟨w, rfl, h, gate_untouched_step _ _ _ ⟨rfl, rfl, rfl, rfl⟩, ?_⟩
      intro t2 ht2 _ hd
      cases ht2
      exact absurd hd hdue


theorem paired_exec (w : World) (c : bc_uart_channel_t) (op : Op) (h : paired w c) :
    ∃ w1, exec w c op = some w1 ∧ paired w1 c ∧ step_paired w w1 c ∧
      (∀ id t, op = Op.run id → pool_get w.sched.pool id = some t →
        t.task = task_fn.async_write_task → t.tick_execution ≤ w.sched.now →
        write_done_once w w1 c) := by
  cases op with
  | async_write buffer =>
    obtain ⟨a, b⟩ := paired_async_write w c buffer h
    exact ⟨_, rfl, a, b, fun id t e => by cases e⟩
  | async_read_start timeout =>
    obtain ⟨a, b⟩ := paired_async_read_start w c timeout h
    exact ⟨_, rfl, a, b, fun id t e => by cases e⟩
  | async_read_cancel =>
    obtain ⟨a, b⟩ := paired_async_read_cancel w c h
    exact ⟨_, rfl, a, b, fun id t e => by cases e⟩
  | async_read length =>
    obtain ⟨r, e, a, b⟩ := paired_async_read w c length h
    exact ⟨r.1, by simp [exec, e], a, b, fun id t e => by cases e⟩
  | irq txe tc rxne rdr =>
    obtain ⟨w1, e, a, b⟩ := paired_irq w c txe tc rxne rdr h
    exact ⟨w1, e, a, gate_untouched_step _ _ _ b, fun id t e => by cases e⟩
  | run id =>
    obtain ⟨w1, e, a, b, d⟩ := paired_run w c id h
    refine ⟨w1, e, a, b, ?_⟩
    intro id2 t e2
    cases e2
    exact d t
  | tick d =>
    obtain ⟨a, b⟩ := paired_tick w c d h
    exact ⟨_, rfl, a, b, fun id t e => by cases e⟩

theorem paired_execs (c : bc_uart_channel_t) (ops : List Op) :
    ∀ w : World, paired w c → ∃ w1, execs w c ops = some w1 ∧ paired w1 c := by
  induction ops with
  | nil => exact fun w h => ⟨w, rfl, h⟩
  | cons op rest ih =>
    intro w h
    obtain ⟨w1, e, a, _⟩ := paired_exec w c op h
    obtain ⟨w2, e2, a2⟩ := ih w1 a
    exact ⟨w2, by simp [execs, e, e2], a2⟩

theorem paired_fresh_channel (w0 : World) (c : bc_uart_channel_t) (baudrate setting : Nat)
    (write_fifo read_fifo : bc_fifo_t) (event_handler : Option Nat) (event_param : Nat)
    (hpool : ∀ i, pool_get w0.sched.pool i = none)
    (hpll : w0.core.pll_enable = w0.core.pll_disable)
    (hds : w0.core.deep_sleep_disable = w0.core.deep_sleep_enable) :
    paired (fresh_channel w0 c baudrate setting write_fifo read_fifo event_handler event_param)
      c := by
  refine ⟨?_, ?_, ?_, ⟨?_, ?_, ?_⟩, ?_, ?_⟩
  · simp [fresh_channel, bc_uart_set_event_handler, bc_uart_set_async_fifo, bc_uart_init]
  · simp [fresh_channel, bc_uart_set_event_handler, bc_uart_set_async_fifo, bc_uart_init]
  · simp [fresh_channel, bc_uart_set_event_handler, bc_uart_set_async_fifo, bc_uart_init]
  · intro i t ht
    have : pool_get w0.sched.pool i = some t := ht
    rw [hpool i] at this
    cases this
  · intro hc
    simp [fresh_channel, bc_uart_set_event_handler, bc_uart_set_async_fifo, bc_uart_init] at hc
  · intro hc
    simp [fresh_channel, bc_uart_set_event_handler, bc_uart_set_async_fifo, bc_uart_init] at hc
  · simp [fresh_channel, bc_uart_set_event_handler, bc_uart_set_async_fifo, bc_uart_init,
      active, hpll]
  · simp [fresh_channel, bc_uart_set_event_handler, bc_uart_set_async_fifo, bc_uart_init,
      active, hds]


/-- C1 as stated fails in two places.  On `LPUART1` a read is armed (the
channel enters Armed) without any power-gate acquisition, and its cancellation
releases nothing; and without a registered callback a run of the write
completion task makes its release but produces no event. -/
theorem power_gate_pairing_as_stated_fails :
    (fresh_lp._bc_uart BC_UART_UART1).usart = LPUART1 ∧
    (∃ w, execs fresh_lp BC_UART_UART1 [Op.async_read_start 100] = some w ∧
      (fresh_lp._bc_uart BC_UART_UART1).async_read_in_progress = false ∧
      (w._bc_uart BC_UART_UART1).async_read_in_progress = true ∧
      w.core = fresh_lp.core) ∧
    (∃ w, execs fresh_lp BC_UART_UART1 [Op.async_read_start 100, Op.async_read_cancel]
        = some w ∧
      (w._bc_uart BC_UART_UART1).async_read_in_progress = false ∧
      w.core = fresh_lp.core) ∧
    (∃ w, execs fresh_silent BC_UART_UART0 one_byte_transfer = some w ∧
      ((w._bc_uart BC_UART_UART0).async_write_in_progress, w.core, (w.periph USART4).TDR,
        w.events) = (false, ⟨1, 1, 0, 0⟩, [65], [])) :=
  ⟨rfl, ⟨_, rfl, rfl, rfl, rfl⟩, ⟨_, rfl, rfl, rfl⟩, Option.map_eq_some'.mp (by decide!)⟩

/-- C1, amended: along every finite sequence of engine steps on a freshly
initialised channel (queues attached, no task registered, power gate balanced)
every step is defined and, in the state reached: no power-gate resource has
been released more often than acquired; the acquisitions not yet released are
exactly one `pll_enable` per active sub-state on an ordinary port, and on
`LPUART1` one `deep_sleep_disable` for an active write and none for an active
read; so with both sub-states Idle the acquire and release counts are equal.
Every further step makes exactly one acquisition per entry to Draining or
Armed and one release per return to Idle (none for Armed on `LPUART1`), and a
run of the write completion task makes exactly one release and reports exactly
one write-done event when a callback is registered, none otherwise. -/
theorem power_gate_pairing (w0 : World) (c : bc_uart_channel_t) (baudrate setting : Nat)
    (write_fifo read_fifo : bc_fifo_t) (event_handler : Option Nat) (event_param : Nat)
    (ops : List Op)
    (hpool : ∀ i, pool_get w0.sched.pool i = none)
    (hpll : w0.core.pll_enable = w0.core.pll_disable)
    (hds : w0.core.deep_sleep_disable = w0.core.deep_sleep_enable) :
    ∃ w, execs (fresh_channel w0 c baudrate setting write_fifo read_fifo event_handler
        event_param) c ops = some w ∧
      w.core.pll_disable ≤ w.core.pll_enable ∧
      w.core.deep_sleep_enable ≤ w.core.deep_sleep_disable ∧
      gate_balanced w c ∧
      ((w._bc_uart c).async_write_in_progress = false →
        (w._bc_uart c).async_read_in_progress = false →
        w.core.pll_enable = w.core.pll_disable ∧
        w.core.deep_sleep_disable = w.core.deep_sleep_enable) ∧
      ∀ op, ∃ w1, exec w c op = some w1 ∧ step_paired w w1 c ∧
        (∀ id t, op = Op.run id → pool_get w.sched.pool id = some t →
          t.task = task_fn.async_write_task → t.tick_execution ≤ w.sched.now →
          write_done_once w w1 c) := by
  obtain ⟨w, e, hw⟩ := paired_execs c ops _
    (paired_fresh_channel w0 c baudrate setting write_fifo read_fifo event_handler event_param
      hpool hpll hds)
  have hb := hw.2.2.2.2
  refine ⟨w, e, ?_, ?_, hb, ?_, ?_⟩
  · rw [hb.1]; exact Nat.le_add_right _ _
  · rw [hb.2]; exact Nat.le_add_right _ _
  · intro h1 h2
    obtain ⟨b1, b2⟩ := hb
    rw [h1, h2] at b1
    rw [h1] at b2
    constructor
    · rw [b1]; split <;> simp [active]
    · rw [b2]; split <;> simp [active]
  · intro op
    obtain ⟨w1, e1, _, s1, d1⟩ := paired_exec w c op hw
    exact ⟨w1, e1, s1, d1⟩

/-- Witness of C1 amended: on `fresh0`, after a byte was enqueued, sent and
its transmission completed, the scheduler run of the write task is defined,
makes the one release and reports the one event. -/
theorem power_gate_pairing_witness :
    (∀ i, pool_get boot.sched.pool i = none) ∧
    ∃ w, execs fresh0 BC_UART_UART0
        [Op.async_write [65], Op.irq true false false 0, Op.irq true false false 0,
          Op.irq false true false 0] = some w ∧
      gate_balanced w BC_UART_UART0 ∧
      ∃ w1, exec w BC_UART_UART0 (Op.run 0) = some w1 ∧
        step_paired w w1 BC_UART_UART0 := by
  obtain ⟨w, e, _, _, hb, _, hstep⟩ := power_gate_pairing boot BC_UART_UART0 0 0 ⟨8, []⟩
    ⟨4, []⟩ (some 7) 42
    [Op.async_write [65], Op.irq true false false 0, Op.irq true false false 0,
      Op.irq false true false 0] (fun i => pool_get_nil i) rfl rfl
  obtain ⟨w1, e1, s1, _⟩ := hstep (Op.run 0)
  exact ⟨fun i => pool_get_nil i, w, e, hb, w1, e1, s1⟩

/-! ## Bring-up -/

/-- C20: whatever the state before, after `bc_uart_init` the control block of
the channel has `initialized` set, both sub-states Idle, no write queue, no read
queue, no callback and a zero timeout (so queues and a callback attached before
are discarded); `bc_uart_async_write` right after it returns 0 and
`bc_uart_async_read_start` returns false, both leaving the state as it is. -/
theorem bc_uart_init_resets (w : World) (channel : bc_uart_channel_t)
    (baudrate setting : Nat) (buffer : List Nat) (timeout : bc_tick_t) :
    ((bc_uart_init w channel baudrate setting)._bc_uart channel).initialized = true ∧
    ((bc_uart_init w channel baudrate setting)._bc_uart channel).async_write_in_progress
      = false ∧
    ((bc_uart_init w channel baudrate setting)._bc_uart channel).async_read_in_progress
      = false ∧
    ((bc_uart_init w channel baudrate setting)._bc_uart channel).write_fifo = none ∧
    ((bc_uart_init w channel baudrate setting)._bc_uart channel).read_fifo = none ∧
    ((bc_uart_init w channel baudrate setting)._bc_uart channel).event_handler = none ∧
    ((bc_uart_init w channel baudrate setting)._bc_uart channel).async_timeout = 0 ∧
    bc_uart_async_write (bc_uart_init w channel baudrate setting) channel buffer =
      (bc_uart_init w channel baudrate setting, 0) ∧
    bc_uart_async_read_start (bc_uart_init w channel baudrate setting) channel timeout =
      (bc_uart_init w channel baudrate setting, false) := by
  have hw : ((bc_uart_init w channel baudrate setting)._bc_uart channel).write_fifo = none := by
    simp [bc_uart_init]
  have hr : ((bc_uart_init w channel baudrate setting)._bc_uart channel).read_fifo = none := by
    simp [bc_uart_init]
  refine ⟨by simp [bc_uart_init], by simp [bc_uart_init], by simp [bc_uart_init], hw, hr,
    by simp [bc_uart_init], by simp [bc_uart_init], ?_, ?_⟩
  · unfold bc_uart_async_write
    cases ((bc_uart_init w channel baudrate setting)._bc_uart channel).initialized <;>
      simp [hw]
  · unfold bc_uart_async_read_start
    simp [hr]

/-! ## Enqueue with nothing accepted -/

theorem set_uart_self (w : World) (c : bc_uart_channel_t) (f : bc_uart_t → bc_uart_t)
    (h : f (w._bc_uart c) = w._bc_uart c) : set_uart w c f = w := by
  unfold set_uart
  rw [h, Function.update_eq_self]

/-- C19: on an initialised channel with a write queue attached, the queue push
accepts zero bytes exactly when the buffer is empty or the queue is full, and a
call in which it accepts zero bytes returns 0 and leaves the whole state
unchanged (write state, task handle, registered tasks and their due ticks,
interrupt enables, power gate and queue contents), Idle or Draining alike. -/
theorem bc_uart_async_write_nothing_accepted (w : World) (channel : bc_uart_channel_t)
    (buffer : List Nat) (fifo : bc_fifo_t)
    (hinit : (w._bc_uart channel).initialized = true)
    (hfifo : (w._bc_uart channel).write_fifo = some fifo) :
    ((bc_fifo_write fifo buffer).2 = 0 ↔
      buffer = [] ∨ fifo.capacity ≤ fifo.data.length) ∧
    ((bc_fifo_write fifo buffer).2 = 0 →
      bc_uart_async_write w channel buffer = (w, 0)) := by
  constructor
  · simp only [bc_fifo_write]
    rw [Nat.min_eq_zero_iff, List.length_eq_zero, Nat.sub_eq_zero_iff_le]
  · intro hz
    have hq : (bc_fifo_write fifo buffer).1 = fifo := by
      have hz2 : min buffer.length (fifo.capacity - fifo.data.length) = 0 := hz
      simp [bc_fifo_write, hz2]
    unfold bc_uart_async_write
    simp only [hinit, hfifo, hz, hq, Bool.not_true, Bool.false_eq_true, if_false,
      bne_self_eq_false]
    rw [set_uart_self]
    rw [← hfifo]

/-- Witness of C19: an empty buffer on the idle `fresh0`, and a buffer offered
to `draining0` once its queue was made full. -/
theorem bc_uart_async_write_nothing_accepted_witness :
    bc_uart_async_write fresh0 BC_UART_UART0 [] = (fresh0, 0) ∧
    bc_uart_async_write (bc_uart_async_write draining0 BC_UART_UART0 [4, 5, 6, 7, 8]).1
        BC_UART_UART0 [9, 10] =
      ((bc_uart_async_write draining0 BC_UART_UART0 [4, 5, 6, 7, 8]).1, 0) :=
  ⟨(bc_uart_async_write_nothing_accepted fresh0 BC_UART_UART0 [] ⟨8, []⟩ rfl rfl).2 rfl,
   (bc_uart_async_write_nothing_accepted
      (bc_uart_async_write draining0 BC_UART_UART0 [4, 5, 6, 7, 8]).1 BC_UART_UART0 [9, 10]
      ⟨8, [1, 2, 3, 4, 5, 6, 7, 8]⟩ rfl rfl).2 rfl⟩

/-! ## Transmit completion task -/

/-- C13: one run of `_bc_uart_async_write_task` on a Draining channel sets the
write sub-state to Idle, frees the slot of the write task handle and no other
slot, makes exactly one power-gate call, the release matching the acquisition
of `bc_uart_async_write` (`pll_disable` on an ordinary port,
`deep_sleep_enable` on `LPUART1`), and reports exactly one write-done event
with the registered user context when a callback is registered, none
otherwise. -/
theorem bc_uart_async_write_task_completes (w : World) (param : bc_uart_channel_t)
    (hdrain : (w._bc_uart param).async_write_in_progress = true) :
    ((_bc_uart_async_write_task w param)._bc_uart param).async_write_in_progress = false ∧
    pool_get (_bc_uart_async_write_task w param).sched.pool
      (w._bc_uart param).async_write_task_id = none ∧
    (∀ j, j ≠ (w._bc_uart param).async_write_task_id →
      pool_get (_bc_uart_async_write_task w param).sched.pool j = pool_get w.sched.pool j) ∧
    (_bc_uart_async_write_task w param).core =
      (if (w._bc_uart param).usart = LPUART1
        then { w.core with deep_sleep_enable := w.core.deep_sleep_enable + 1 }
        else { w.core with pll_disable := w.core.pll_disable + 1 }) ∧
    (∀ h, (w._bc_uart param).event_handler = some h →
      ∃ e, (_bc_uart_async_write_task w param).events = w.events ++ [e] ∧ e.handler = h ∧
        e.event = BC_UART_EVENT_ASYNC_WRITE_DONE ∧
        e.param = (w._bc_uart param).event_param) ∧
    ((w._bc_uart param).event_handler = none →
      (_bc_uart_async_write_task w param).events = w.events) := by
  have _ := hdrain
  cases hh : (w._bc_uart param).event_handler <;>
  by_cases hlp : (w._bc_uart param).usart = LPUART1
  all_goals
    unfold _bc_uart_async_write_task
    simp only [hh]
    refine ⟨?_, ?_, ?_, ?_, ?_, ?_⟩
    · simp [hlp, bc_module_core_deep_sleep_enable, bc_module_core_pll_disable,
        call_event_handler]
    · simp [hlp, bc_module_core_deep_sleep_enable, bc_module_core_pll_disable,
        call_event_handler, bc_scheduler_unregister, pool_get_set]
    · intro j hj
      simp [hlp, bc_module_core_deep_sleep_enable, bc_module_core_pll_disable,
        call_event_handler, bc_scheduler_unregister, pool_get_set, hj]
    · simp [hlp, bc_module_core_deep_sleep_enable, bc_module_core_pll_disable,
        call_event_handler]
    · intro h hc
      first
        | (cases hc; done)
        | (cases hc
           exact ⟨_, by simp [hlp, bc_module_core_deep_sleep_enable,
             bc_module_core_pll_disable, call_event_handler]; rfl, rfl, rfl, rfl⟩)
    · intro hc
      first
        | (cases hc; done)
        | simp [hlp, bc_module_core_deep_sleep_enable, bc_module_core_pll_disable]

/-- Witness of C13: the write task of `draining0` runs. -/
theorem bc_uart_async_write_task_completes_witness :
    ((_bc_uart_async_write_task draining0 BC_UART_UART0)._bc_uart
      BC_UART_UART0).async_write_in_progress = false ∧
    (_bc_uart_async_write_task draining0 BC_UART_UART0).core.pll_disable = 1 ∧
    pool_get (_bc_uart_async_write_task draining0 BC_UART_UART0).sched.pool 0 = none :=
  have h := bc_uart_async_write_task_completes draining0 BC_UART_UART0 rfl
  ⟨h.1, (congrArg bc_module_core_t.pll_disable h.2.2.2.1).trans rfl, h.2.1⟩

/-- C14, the code at a failing input: on channel `BC_UART_UART0` the write-done
event of `draining0` and the read-timeout event of `armed0` are handed to the
callback with channel identifier `BC_UART_UART1`, not `BC_UART_UART0`; the
user context is the registered one. -/
theorem event_channel_is_uart1 :
    (_bc_uart_async_write_task draining0 BC_UART_UART0).events =
      [⟨7, BC_UART_UART1, BC_UART_EVENT_ASYNC_WRITE_DONE, 42⟩] ∧
    (_bc_uart_async_read_task armed0 BC_UART_UART0).map World.events =
      some [⟨7, BC_UART_UART1, BC_UART_EVENT_ASYNC_READ_TIMEOUT, 42⟩] ∧
    (draining0._bc_uart BC_UART_UART0).event_handler = some 7 ∧
    (draining0._bc_uart BC_UART_UART0).event_param = 42 ∧
    BC_UART_UART1 ≠ BC_UART_UART0 :=
  ⟨rfl, rfl, rfl, rfl, by decide⟩

/-! ## Draining the read queue -/

/-- C12: `bc_uart_async_read` returns 0, copies nothing and leaves the whole
state (the read queue included) unchanged when the channel is not initialised
or not Armed; on an initialised, Armed channel it removes the first
`min length (queue length)` bytes of the read queue, copies them out in queue
order and returns their number, and changes nothing but the queue contents:
read state, stored timeout, task handles, registers, scheduler, power gate and
event log are as before. -/
theorem bc_uart_async_read_drains (w : World) (channel : bc_uart_channel_t) (length : Nat) :
    ((w._bc_uart channel).initialized = false ∨
        (w._bc_uart channel).async_read_in_progress = false →
      bc_uart_async_read w channel length = some (w, 0, [])) ∧
    (∀ fifo, (w._bc_uart channel).initialized = true →
      (w._bc_uart channel).async_read_in_progress = true →
      (w._bc_uart channel).read_fifo = some fifo →
      ∃ w1, bc_uart_async_read w channel length =
          some (w1, min length fifo.data.length, fifo.data.take length) ∧
        (w1._bc_uart channel).read_fifo =
          some { fifo with data := fifo.data.drop length } ∧
        (w1._bc_uart channel).async_read_in_progress = true ∧
        (w1._bc_uart channel).async_write_in_progress =
          (w._bc_uart channel).async_write_in_progress ∧
        (w1._bc_uart channel).async_timeout = (w._bc_uart channel).async_timeout ∧
        (w1._bc_uart channel).async_read_task_id = (w._bc_uart channel).async_read_task_id ∧
        (w1._bc_uart channel).async_write_task_id =
          (w._bc_uart channel).async_write_task_id ∧
        (w1._bc_uart channel).write_fifo = (w._bc_uart channel).write_fifo ∧
        w1.periph = w.periph ∧ w1.sched = w.sched ∧ w1.core = w.core ∧
        w1.events = w.events) := by
  constructor
  · intro h
    unfold bc_uart_async_read
    rcases h with h | h <;> simp [h]
  · intro fifo hi ha hf
    refine ⟨set_uart w channel (fun u =>
      { u with read_fifo := some (bc_fifo_read fifo length).1 }), ?_, ?_, ?_, ?_, ?_, ?_, ?_,
      ?_, rfl, rfl, rfl, rfl⟩
    · unfold bc_uart_async_read
      simp [hi, ha, hf, bc_fifo_read, List.length_take]
    · simp [bc_fifo_read]
    · simp [ha]
    · simp
    · simp
    · simp
    · simp
    · simp

/-- Witness of C12: after the byte 300 mod 256 = 44 and the byte 7 were
received on `armed0`, a read of at most 5 bytes returns both in order. -/
theorem bc_uart_async_read_drains_witness :
    ∃ w1, bc_uart_async_read
        (set_uart armed0 BC_UART_UART0 (fun u => { u with read_fifo := some ⟨4, [44, 7]⟩ }))
        BC_UART_UART0 5 = some (w1, 2, [44, 7]) ∧
      (w1._bc_uart BC_UART_UART0).read_fifo = some ⟨4, []⟩ ∧
      (w1._bc_uart BC_UART_UART0).async_read_in_progress = true := by
  obtain ⟨w1, h1, h2, h3, _⟩ := (bc_uart_async_read_drains
    (set_uart armed0 BC_UART_UART0 (fun u => { u with read_fifo := some ⟨4, [44, 7]⟩ }))
    BC_UART_UART0 5).2 ⟨4, [44, 7]⟩ rfl rfl rfl
  exact ⟨w1, h1, h2, h3⟩

/-! ## Cancel, then arm again -/

theorem bc_uart_async_read_cancel_effect (w : World) (channel : bc_uart_channel_t)
    (hinit : (w._bc_uart channel).initialized = true)
    (harmed : (w._bc_uart channel).async_read_in_progress = true) :
    ((bc_uart_async_read_cancel w channel).1._bc_uart channel) =
      { w._bc_uart channel with async_read_in_progress := false } ∧
    ((bc_uart_async_read_cancel w channel).1.periph (w._bc_uart channel).usart).CR1_RXNEIE
      = false ∧
    (bc_uart_async_read_cancel w channel).1.sched.pool =
      pool_set w.sched.pool (w._bc_uart channel).async_read_task_id none ∧
    (bc_uart_async_read_cancel w channel).1.events = w.events := by
  unfold bc_uart_async_read_cancel
  by_cases hlp : (w._bc_uart channel).usart = LPUART1
  · simp [hinit, harmed, hlp, bc_scheduler_unregister]
  · simp [hinit, harmed, hlp, bc_scheduler_unregister, bc_module_core_pll_disable]

theorem bc_uart_async_read_start_pool (w : World) (channel : bc_uart_channel_t)
    (timeout : bc_tick_t)
    (hinit : (w._bc_uart channel).initialized = true)
    (hfifo : (w._bc_uart channel).read_fifo ≠ none)
    (hidle : (w._bc_uart channel).async_read_in_progress = false) :
    (bc_uart_async_read_start w channel timeout).1.sched.pool =
      pool_set w.sched.pool (pool_free w.sched.pool)
        (some ⟨task_fn.async_read_task, channel, timeout⟩) ∧
    ((bc_uart_async_read_start w channel timeout).1._bc_uart channel).async_read_task_id =
      pool_free w.sched.pool := by
  unfold bc_uart_async_read_start
  cases hf : (w._bc_uart channel).read_fifo with
  | none => exact absurd hf hfifo
  | some q =>
    by_cases hlp : (w._bc_uart channel).usart = LPUART1
    · simp [hinit, hidle, hlp, hf, bc_scheduler_register]
    · simp [hinit, hidle, hlp, hf, bc_scheduler_register, bc_module_core_pll_enable]

/-- C11: on an initialised, Armed channel whose read task is the one registered
in its handle's slot, `bc_uart_async_read_cancel` sets the read sub-state to
Idle, clears the receive interrupt enable, frees the slot of the read task so
that no read task remains registered, and calls no callback; a following
`bc_uart_async_read_start` with any timeout then returns true, stores that
timeout, sets the receive interrupt enable again, is Armed, and leaves exactly
one read task registered, the one in the new handle's slot. -/
theorem bc_uart_async_read_cancel_then_start (w : World) (channel : bc_uart_channel_t)
    (timeout : bc_tick_t)
    (hinit : (w._bc_uart channel).initialized = true)
    (hfifo : (w._bc_uart channel).read_fifo ≠ none)
    (harmed : (w._bc_uart channel).async_read_in_progress = true)
    (hpool : pool_ok w.sched.pool channel (w._bc_uart channel).async_write_in_progress
      (w._bc_uart channel).async_write_task_id true (w._bc_uart channel).async_read_task_id) :
    ((bc_uart_async_read_cancel w channel).1._bc_uart channel).async_read_in_progress
      = false ∧
    ((bc_uart_async_read_cancel w channel).1.periph (w._bc_uart channel).usart).CR1_RXNEIE
      = false ∧
    pool_get (bc_uart_async_read_cancel w channel).1.sched.pool
      (w._bc_uart channel).async_read_task_id = none ∧
    (∀ i t, pool_get (bc_uart_async_read_cancel w channel).1.sched.pool i = some t →
      t.task ≠ task_fn.async_read_task) ∧
    (bc_uart_async_read_cancel w channel).1.events = w.events ∧
    (bc_uart_async_read_start (bc_uart_async_read_cancel w channel).1 channel timeout).2
      = true ∧
    ((bc_uart_async_read_start (bc_uart_async_read_cancel w channel).1 channel
      timeout).1._bc_uart channel).async_timeout = timeout ∧
    ((bc_uart_async_read_start (bc_uart_async_read_cancel w channel).1 channel
      timeout).1._bc_uart channel).async_read_in_progress = true ∧
    ((bc_uart_async_read_start (bc_uart_async_read_cancel w channel).1 channel
      timeout).1.periph (w._bc_uart channel).usart).CR1_RXNEIE = true ∧
    (∃ t, pool_get (bc_uart_async_read_start (bc_uart_async_read_cancel w channel).1 channel
        timeout).1.sched.pool
        ((bc_uart_async_read_start (bc_uart_async_read_cancel w channel).1 channel
          timeout).1._bc_uart channel).async_read_task_id = some t ∧
      t.task = task_fn.async_read_task ∧ t.param = channel) ∧
    (∀ i t, pool_get (bc_uart_async_read_start (bc_uart_async_read_cancel w channel).1 channel
        timeout).1.sched.pool i = some t → t.task = task_fn.async_read_task →
      i = ((bc_uart_async_read_start (bc_uart_async_read_cancel w channel).1 channel
        timeout).1._bc_uart channel).async_read_task_id) := by
  obtain ⟨c1, c2, c3, c4⟩ := bc_uart_async_read_cancel_effect w channel hinit harmed
  have d1 : ((bc_uart_async_read_cancel w channel).1._bc_uart channel).initialized = true := by
    rw [c1]; exact hinit
  have d2 : ((bc_uart_async_read_cancel w channel).1._bc_uart channel).read_fifo ≠ none := by
    rw [c1]; exact hfifo
  have d3 : ((bc_uart_async_read_cancel w channel).1._bc_uart channel).async_read_in_progress
      = false := by
    rw [c1]
  have d4 : ((bc_uart_async_read_cancel w channel).1._bc_uart channel).usart =
      (w._bc_uart channel).usart := by
    rw [c1]
  have hp1 := pool_ok_unregister_read _ _ _ _ _ hpool
  have hp2 := pool_ok_register_read _ _ _ _ _ timeout hp1
  obtain ⟨s1, s2, s3, s4, _, s6⟩ :=
    bc_uart_async_read_start_effect (bc_uart_async_read_cancel w channel).1 channel timeout
      d1 d2 d3
  obtain ⟨q1, q2⟩ :=
    bc_uart_async_read_start_pool (bc_uart_async_read_cancel w channel).1 channel timeout
      d1 d2 d3
  rw [d4] at s4
  refine ⟨d3, c2, ?_, ?_, c4, s1, s2, s3, s4, ⟨_, s6, rfl, rfl⟩, ?_⟩
  · rw [c3, pool_get_set, if_pos rfl]
  · intro i t ht hk
    rw [c3] at ht
    obtain ⟨_, hc⟩ := hp1.1 i t ht
    rcases hc with ⟨k, _, _⟩ | ⟨_, k, _⟩
    · rw [k] at hk; cases hk
    · cases k
  · intro i t ht hk
    rw [q1, c3] at ht
    rw [q2, c3]
    obtain ⟨_, hc⟩ := hp2.1 i t ht
    rcases hc with ⟨k, _, _⟩ | ⟨_, _, k⟩
    · rw [k] at hk; cases hk
    · exact k

/-- Witness of C11: the read armed on `armed0` with timeout 100 is cancelled and
armed again with timeout 30. -/
theorem bc_uart_async_read_cancel_then_start_witness :
    ((bc_uart_async_read_cancel armed0 BC_UART_UART0).1.periph USART4).CR1_RXNEIE = false ∧
    (bc_uart_async_read_start (bc_uart_async_read_cancel armed0 BC_UART_UART0).1 BC_UART_UART0
      30).2 = true ∧
    ((bc_uart_async_read_start (bc_uart_async_read_cancel armed0 BC_UART_UART0).1
      BC_UART_UART0 30).1._bc_uart BC_UART_UART0).async_timeout = 30 :=
  have h := bc_uart_async_read_cancel_then_start armed0 BC_UART_UART0 30 rfl (by decide) rfl
    (paired_async_read_start fresh0 BC_UART_UART0 100
      (paired_fresh_channel boot BC_UART_UART0 0 0 ⟨8, []⟩ ⟨4, []⟩ (some 7) 42
        (fun i => pool_get_nil i) rfl rfl)).1.2.2.2.1
  ⟨h.2.1, h.2.2.2.2.2.1, h.2.2.2.2.2.2.1⟩

/-! ## The blocks of the interrupt handler -/

theorem same_block_refl (w : World) (c : bc_uart_channel_t) : same_block w w c :=
  ⟨rfl, rfl, rfl, rfl, rfl, rfl, rfl, rfl, rfl⟩

theorem same_block_trans (w w1 w2 : World) (c : bc_uart_channel_t)
    (h : same_block w w1 c) (g : same_block w1 w2 c) : same_block w w2 c := by
  obtain ⟨h1, h2, h3, h4, h5, h6, h7, h8, h9⟩ := h
  obtain ⟨g1, g2, g3, g4, g5, g6, g7, g8, g9⟩ := g
  exact ⟨g1.trans h1, g2.trans h2, g3.trans h3, g4.trans h4, g5.trans h5, g6.trans h6,
    g7.trans h7, g8.trans h8, g9.trans h9⟩

theorem irq_frame_refl (w : World) (c : bc_uart_channel_t) : irq_frame w w c :=
  ⟨rfl, rfl, rfl, same_block_refl w c, rfl, rfl, rfl, rfl, rfl⟩

theorem irq_frame_trans (w w1 w2 : World) (c : bc_uart_channel_t)
    (h : irq_frame w w1 c) (g : irq_frame w1 w2 c) : irq_frame w w2 c := by
  obtain ⟨h1, h2, h3, h4, h5, h6, h7, h8, h9⟩ := h
  obtain ⟨g1, g2, g3, g4, g5, g6, g7, g8, g9⟩ := g
  have hu := h4.2.2.2.2.2.2.2.2
  rw [hu] at g5 g6 g7 g8 g9
  exact ⟨g1.trans h1, g2.trans h2, g3.trans h3, same_block_trans w w1 w2 c h4 g4,
    g5.trans h5, g6.trans h6, g7.trans h7, g8.trans h8, g9.trans h9⟩

theorem irq_transmit_frame (w w1 : World) (c : bc_uart_channel_t)
    (h : irq_transmit w c = some w1) :
    irq_frame w w1 c ∧ w1.sched = w.sched ∧
    (w1._bc_uart c).read_fifo = (w._bc_uart c).read_fifo := by
  unfold irq_transmit at h
  simp only [] at h
  split at h
  · split at h
    · cases h
    · split at h
      · cases h
        simp [irq_frame, same_block]
      · cases h
        simp [irq_frame, same_block]
  · cases h
    exact ⟨irq_frame_refl w c, rfl, rfl⟩

theorem irq_complete_frame (w : World) (c : bc_uart_channel_t) :
    irq_frame w (irq_complete w c) c ∧
    (irq_complete w c)._bc_uart c = w._bc_uart c ∧
    ((irq_complete w c).periph (w._bc_uart c).usart).TDR = (w.periph (w._bc_uart c).usart).TDR ∧
    ((irq_complete w c).periph (w._bc_uart c).usart).CR1_TXEIE =
      (w.periph (w._bc_uart c).usart).CR1_TXEIE := by
  unfold irq_complete
  simp only []
  split
  · simp [irq_frame, same_block, bc_scheduler_plan_now]
  · exact ⟨irq_frame_refl w c, rfl, rfl, rfl⟩

theorem irq_receive_frame (w w1 : World) (c : bc_uart_channel_t)
    (h : irq_receive w c = some w1) :
    irq_frame w w1 c ∧ w1.periph = w.periph ∧
    (w1._bc_uart c).write_fifo = (w._bc_uart c).write_fifo := by
  unfold irq_receive at h
  simp only [] at h
  split at h
  · split at h
    · cases h
    · cases h
      simp [irq_frame, same_block, bc_scheduler_plan_now]
  · cases h
    exact ⟨irq_frame_refl w c, rfl, rfl⟩

theorem irq_transmit_defined (w : World) (c : bc_uart_channel_t)
    (htx : (w._bc_uart c).write_fifo = none →
      ((w.periph (w._bc_uart c).usart).CR1_TXEIE &&
        (w.periph (w._bc_uart c).usart).ISR_TXE) = false) :
    ∃ w1, irq_transmit w c = some w1 := by
  unfold irq_transmit
  simp only []
  split
  · rename_i hc
    cases hq : (w._bc_uart c).write_fifo with
    | none => rw [htx hq] at hc; cases hc
    | some q =>
      simp only []
      split
      · exact ⟨_, rfl⟩
      · exact ⟨_, rfl⟩
  · exact ⟨w, rfl⟩

theorem irq_receive_defined (w : World) (c : bc_uart_channel_t)
    (hrx : (w._bc_uart c).read_fifo = none →
      ((w.periph (w._bc_uart c).usart).CR1_RXNEIE &&
        (w.periph (w._bc_uart c).usart).ISR_RXNE) = false) :
    ∃ w1, irq_receive w c = some w1 := by
  unfold irq_receive
  simp only []
  split
  · rename_i hc
    cases hq : (w._bc_uart c).read_fifo with
    | none => rw [hrx hq] at hc; cases hc
    | some q => exact ⟨_, rfl⟩
  · exact ⟨w, rfl⟩

theorem irq_handler_defined (w : World) (c : bc_uart_channel_t)
    (htx : (w._bc_uart c).write_fifo = none →
      ((w.periph (w._bc_uart c).usart).CR1_TXEIE &&
        (w.periph (w._bc_uart c).usart).ISR_TXE) = false)
    (hrx : (w._bc_uart c).read_fifo = none →
      ((w.periph (w._bc_uart c).usart).CR1_RXNEIE &&
        (w.periph (w._bc_uart c).usart).ISR_RXNE) = false) :
    ∃ w1 w2, irq_transmit w c = some w1 ∧ irq_receive (irq_complete w1 c) c = some w2 ∧
      _bc_uart_irq_handler w c = some w2 := by
  obtain ⟨w1, e1⟩ := irq_transmit_defined w c htx
  obtain ⟨f1, _, f3⟩ := irq_transmit_frame w w1 c e1
  obtain ⟨g1, g2, _, _⟩ := irq_complete_frame w1 c
  have fg := irq_frame_trans w w1 _ c f1 g1
  have hu : ((irq_complete w1 c)._bc_uart c).usart = (w._bc_uart c).usart :=
    fg.2.2.2.1.2.2.2.2.2.2.2.2
  obtain ⟨w2, e2⟩ := irq_receive_defined (irq_complete w1 c) c (by
    intro hn
    rw [g2, f3] at hn
    rw [hu, fg.2.2.2.2.1, fg.2.2.2.2.2.2.2.1]
    exact hrx hn)
  exact ⟨w1, w2, e1, e2, by simp [_bc_uart_irq_handler, e1, e2]⟩

theorem irq_handler_frame (w w2 : World) (c : bc_uart_channel_t)
    (h : _bc_uart_irq_handler w c = some w2) :
    ∃ w1, irq_transmit w c = some w1 ∧ irq_receive (irq_complete w1 c) c = some w2 ∧
      irq_frame w w2 c := by
  unfold _bc_uart_irq_handler at h
  cases e1 : irq_transmit w c with
  | none => rw [e1] at h; cases h
  | some w1 =>
    rw [e1] at h
    have e2 : irq_receive (irq_complete w1 c) c = some w2 := h
    refine ⟨w1, rfl, e2, ?_⟩
    exact irq_frame_trans _ _ _ c
      (irq_frame_trans _ _ _ c (irq_transmit_frame w w1 c e1).1 (irq_complete_frame w1 c).1)
      (irq_receive_frame _ w2 c e2).1

theorem irq_transmit_tcie (w w1 : World) (c : bc_uart_channel_t)
    (h : irq_transmit w c = some w1)
    (hg : (w.periph (w._bc_uart c).usart).CR1_TCIE = true ∨
      ((w.periph (w._bc_uart c).usart).CR1_TXEIE = true ∧
        (w.periph (w._bc_uart c).usart).ISR_TXE = true ∧
        ∃ q, (w._bc_uart c).write_fifo = some q ∧ q.data = [])) :
    (w1.periph (w._bc_uart c).usart).CR1_TCIE = true := by
  unfold irq_transmit at h
  simp only [] at h
  split at h
  · split at h
    · cases h
    · rename_i q hq
      split at h
      · rename_i hne
        cases h
        rcases hg with hg | ⟨_, _, q2, h2, h3⟩
        · simpa using hg
        · rw [hq] at h2
          cases h2
          simp [bc_fifo_irq_read, bc_fifo_read, h3] at hne
      · cases h
        simp
  · rename_i hoff
    cases h
    rcases hg with hg | ⟨h1, h2, _⟩
    · exact hg
    · simp [h1, h2] at hoff

theorem irq_complete_taken (w : World) (c : bc_uart_channel_t)
    (hen : (w.periph (w._bc_uart c).usart).CR1_TCIE = true)
    (hpe : (w.periph (w._bc_uart c).usart).ISR_TC = true) :
    ((irq_complete w c).periph (w._bc_uart c).usart).CR1_TCIE = false ∧
    (irq_complete w c).sched.pool =
      pool_plan w.sched.pool (w._bc_uart c).async_write_task_id w.sched.now := by
  simp [irq_complete, hen, hpe, bc_scheduler_plan_now]

theorem irq_receive_pool (w w1 : World) (c : bc_uart_channel_t)
    (h : irq_receive w c = some w1) (j : Nat) :
    pool_get w1.sched.pool j = pool_get w.sched.pool j ∨
    pool_get w1.sched.pool j =
      (pool_get w.sched.pool j).map (fun t => { t with tick_execution := w.sched.now }) := by
  unfold irq_receive at h
  simp only [] at h
  split at h
  · split at h
    · cases h
    · cases h
      simp only [bc_scheduler_plan_now, set_uart_sched, pool_get_plan]
      split
      · rename_i e
        right
        rw [e]
      · left; rfl
  · cases h
    left; rfl

/-- C17: in every state and for every combination of pending flags, a run of
`_bc_uart_irq_handler` makes no power-gate call, calls no callback and leaves
both sub-states as they were.  When the run is defined (queues attached for
the sources that are enabled and pending) and the transmission-complete source
is enabled and pending at the moment its guard is evaluated, that is after the
transmit-empty block, the run ends with the transmission-complete enable
cleared and the task in the write handle's slot planned for the current time.
That guard holds, with the flag pending, as soon as the enable was set on
entry or was set by the transmit-empty block of the same run finding the queue
empty. -/
theorem irq_complete_branch (w : World) (c : bc_uart_channel_t) :
    (∀ w2, _bc_uart_irq_handler w c = some w2 →
      w2.core = w.core ∧ w2.events = w.events ∧
      (w2._bc_uart c).async_write_in_progress = (w._bc_uart c).async_write_in_progress ∧
      (w2._bc_uart c).async_read_in_progress = (w._bc_uart c).async_read_in_progress) ∧
    (((w._bc_uart c).write_fifo = none →
        ((w.periph (w._bc_uart c).usart).CR1_TXEIE &&
          (w.periph (w._bc_uart c).usart).ISR_TXE) = false) →
      ((w._bc_uart c).read_fifo = none →
        ((w.periph (w._bc_uart c).usart).CR1_RXNEIE &&
          (w.periph (w._bc_uart c).usart).ISR_RXNE) = false) →
      ∃ w1 w2, irq_transmit w c = some w1 ∧ _bc_uart_irq_handler w c = some w2 ∧
        ((w1.periph (w._bc_uart c).usart).CR1_TCIE = true →
          (w1.periph (w._bc_uart c).usart).ISR_TC = true →
          (w2.periph (w._bc_uart c).usart).CR1_TCIE = false ∧
          pool_get w2.sched.pool (w._bc_uart c).async_write_task_id =
            (pool_get w.sched.pool (w._bc_uart c).async_write_task_id).map
              (fun t => { t with tick_execution := w.sched.now })) ∧
        ((w.periph (w._bc_uart c).usart).ISR_TC = true →
          ((w.periph (w._bc_uart c).usart).CR1_TCIE = true ∨
            ((w.periph (w._bc_uart c).usart).CR1_TXEIE = true ∧
              (w.periph (w._bc_uart c).usart).ISR_TXE = true ∧
              ∃ q, (w._bc_uart c).write_fifo = some q ∧ q.data = [])) →
          (w1.periph (w._bc_uart c).usart).CR1_TCIE = true ∧
          (w1.periph (w._bc_uart c).usart).ISR_TC = true)) := by
  constructor
  · intro w2 h
    obtain ⟨_, _, _, f⟩ := irq_handler_frame w w2 c h
    exact ⟨f.1, f.2.1, f.2.2.2.1.2.2.2.2.2.1, f.2.2.2.1.2.2.2.2.2.2.1⟩
  · intro htx hrx
    obtain ⟨w1, w2, e1, e2, e3⟩ := irq_handler_defined w c htx hrx
    obtain ⟨f1, f2, _⟩ := irq_transmit_frame w w1 c e1
    have hu : (w1._bc_uart c).usart = (w._bc_uart c).usart := f1.2.2.2.1.2.2.2.2.2.2.2.2
    have hid : (w1._bc_uart c).async_write_task_id = (w._bc_uart c).async_write_task_id :=
      f1.2.2.2.1.2.2.2.1
    refine ⟨w1, w2, e1, e3, ?_, ?_⟩
    · intro hen hpe
      rw [← hu] at hen hpe
      obtain ⟨t1, t2⟩ := irq_complete_taken w1 c hen hpe
      obtain ⟨_, r2, _⟩ := irq_receive_frame _ w2 c e2
      rw [hu] at t1
      refine ⟨by rw [r2]; exact t1, ?_⟩
      have hnow : (irq_complete w1 c).sched.now = w.sched.now := by
        rw [(irq_complete_frame w1 c).1.2.2.1, f2]
      have hp : pool_get (irq_complete w1 c).sched.pool (w._bc_uart c).async_write_task_id =
          (pool_get w.sched.pool (w._bc_uart c).async_write_task_id).map
            (fun t => { t with tick_execution := w.sched.now }) := by
        rw [t2, pool_get_plan, hid, if_pos rfl, f2]
      rcases irq_receive_pool _ w2 c e2 (w._bc_uart c).async_write_task_id with k | k
      · rw [k, hp]
      · rw [k, hp, hnow]
        cases pool_get w.sched.pool (w._bc_uart c).async_write_task_id <;> rfl
    · intro hpe hg
      exact ⟨irq_transmit_tcie w w1 c e1 hg, by rw [f1.2.2.2.2.2.2.1]; exact hpe⟩

/-- Witness of C17: on `drained0_txe_tc` the transmit-empty block finds the
queue empty and enables the transmission-complete source, which is pending:
the same run clears that enable and plans the write task (slot 0) for now. -/
theorem irq_complete_branch_witness :
    ∃ w1 w2, irq_transmit drained0_txe_tc BC_UART_UART0 = some w1 ∧
      _bc_uart_irq_handler drained0_txe_tc BC_UART_UART0 = some w2 ∧
      (w1.periph USART4).CR1_TCIE = true ∧
      (w2.periph USART4).CR1_TCIE = false ∧
      pool_get w2.sched.pool 0 = some ⟨task_fn.async_write_task, BC_UART_UART0, 0⟩ ∧
      w2.core = drained0_txe_tc.core ∧ w2.events = drained0_txe_tc.events := by
  obtain ⟨w1, w2, h1, h2, h3, h4⟩ := (irq_complete_branch drained0_txe_tc BC_UART_UART0).2
    (by intro h; cases h) (by intro h; cases h)
  obtain ⟨g1, g2⟩ := h4 rfl (Or.inr ⟨rfl, rfl, ⟨8, []⟩, rfl, rfl⟩)
  obtain ⟨k1, k2⟩ := h3 g1 g2
  obtain ⟨m1, m2, _, _⟩ := (irq_complete_branch drained0_txe_tc BC_UART_UART0).1 w2 h2
  exact ⟨w1, w2, h1, h2, g1, k1, k2, m1, m2⟩

/-! ## Receive block and the following run of the read task -/

theorem bc_fifo_irq_write_one (q : bc_fifo_t) (b : Nat) :
    (bc_fifo_irq_write q [b]).1 =
      { q with data := if q.data.length < q.capacity then q.data ++ [b] else q.data } := by
  unfold bc_fifo_irq_write bc_fifo_write
  by_cases h : q.data.length < q.capacity
  · have hm : min [b].length (q.capacity - q.data.length) = 1 := by
      simp only [List.length_singleton]; omega
    simp [h]
    omega
  · have hm : min [b].length (q.capacity - q.data.length) = 0 := by
      simp only [List.length_singleton]; omega
    simp [h]
    omega

theorem irq_complete_pool (w : World) (c : bc_uart_channel_t) (j : Nat) :
    pool_get (irq_complete w c).sched.pool j = pool_get w.sched.pool j ∨
    pool_get (irq_complete w c).sched.pool j =
      (pool_get w.sched.pool j).map (fun t => { t with tick_execution := w.sched.now }) := by
  unfold irq_complete
  simp only []
  split
  · simp only [bc_scheduler_plan_now, set_regs_sched, set_regs_uart, pool_get_plan]
    split
    · rename_i e
      right
      rw [e]
    · left; rfl
  · left; rfl

theorem irq_receive_taken (w : World) (c : bc_uart_channel_t) (q : bc_fifo_t)
    (hq : (w._bc_uart c).read_fifo = some q)
    (hen : (w.periph (w._bc_uart c).usart).CR1_RXNEIE = true)
    (hpe : (w.periph (w._bc_uart c).usart).ISR_RXNE = true) :
    ∃ w1, irq_receive w c = some w1 ∧
      (w1._bc_uart c).read_fifo =
        some (bc_fifo_irq_write q [(w.periph (w._bc_uart c).usart).RDR % 256]).1 ∧
      w1.sched.pool = pool_plan w.sched.pool (w._bc_uart c).async_read_task_id w.sched.now := by
  refine ⟨_, by simp [irq_receive, hq, hen, hpe]; rfl, ?_, ?_⟩
  · simp
  · simp [bc_scheduler_plan_now]

theorem run_read_task (w : World) (c : bc_uart_channel_t) (id : Nat)
    (t : bc_scheduler_task_t) (q : bc_fifo_t)
    (ht : pool_get w.sched.pool id = some t)
    (hfn : t.task = task_fn.async_read_task) (hpar : t.param = c)
    (hdue : t.tick_execution ≤ w.sched.now)
    (hq : (w._bc_uart c).read_fifo = some q) :
    ∃ w2, bc_scheduler_run_task w id = some w2 ∧
      pool_get w2.sched.pool id =
        some { t with tick_execution := w.sched.now + (w._bc_uart c).async_timeout } ∧
      (∀ h, (w._bc_uart c).event_handler = some h →
        ∃ e, w2.events = w.events ++ [e] ∧ e.handler = h ∧
          e.event = (if q.data = [] then BC_UART_EVENT_ASYNC_READ_TIMEOUT
            else BC_UART_EVENT_ASYNC_READ_DATA)) ∧
      ((w._bc_uart c).event_handler = none → w2.events = w.events) := by
  have hr : bc_scheduler_run_task w id =
      _bc_uart_async_read_task { w with sched := { w.sched with current_task_id := id } } c := by
    simp [bc_scheduler_run_task, ht, hfn, hpar, hdue]
  rw [hr]
  unfold _bc_uart_async_read_task
  cases hh : (w._bc_uart c).event_handler with
  | none =>
    simp only [hh]
    refine ⟨_, rfl, ?_, ?_, ?_⟩
    · simp [bc_scheduler_plan_current_relative, pool_get_plan, ht]
    · intro h hc; cases hc
    · intro _; rfl
  | some f =>
    simp only [hh, hq]
    by_cases hd : q.data = []
    · have he : bc_fifo_is_empty q = true := by simp [bc_fifo_is_empty, hd]
      simp only [he, if_true]
      refine ⟨_, rfl, ?_, ?_, ?_⟩
      · simp [call_event_handler, bc_scheduler_plan_current_relative, pool_get_plan, ht]
      · intro h hc
        cases hc
        exact ⟨_, rfl, rfl, by simp [hd]⟩
      · intro hc; cases hc
    · have he : bc_fifo_is_empty q = false := by simp [bc_fifo_is_empty, hd]
      simp only [he, Bool.false_eq_true, if_false]
      refine ⟨_, rfl, ?_, ?_, ?_⟩
      · simp [call_event_handler, bc_scheduler_plan_current_relative, pool_get_plan, ht]
      · intro h hc
        cases hc
        exact ⟨_, rfl, rfl, by simp [hd]⟩
      · intro hc; cases hc

/-- C18 as stated fails on a read queue that holds no byte and has no room
(capacity 0): on channel `BC_UART_UART0` armed at time 0 with timeout 100, the
byte arriving at time 30 is dropped, the queue stays empty, and the run of the
read task that the interrupt planned reports
`BC_UART_EVENT_ASYNC_READ_TIMEOUT`, not data; it is re-planned for 130. -/
theorem irq_receive_no_room_reports_timeout :
    ∃ w, execs (fresh_channel boot BC_UART_UART0 0 0 ⟨8, []⟩ ⟨0, []⟩ (some 7) 42)
        BC_UART_UART0 byte_arrives_at_30 = some w ∧
      ((w._bc_uart BC_UART_UART0).read_fifo, w.events.map event_call.event,
        pool_get w.sched.pool 0) =
      (some ⟨0, []⟩, [BC_UART_EVENT_ASYNC_READ_TIMEOUT],
        some ⟨task_fn.async_read_task, BC_UART_UART0, 130⟩) :=
  Option.map_eq_some'.mp (by decide!)

/-- C18, amended: on an Armed channel whose read task is registered in its
handle's slot, with the receive source enabled and pending, one run of
`_bc_uart_irq_handler` is defined, takes the byte of the receive data register
(its low 8 bits), appends it to the back of the read queue when the queue has
room and otherwise leaves the queue contents unchanged, and plans the read task
for the current time.  The next scheduler run of that task, `d` ticks later,
re-plans the task for the time of that run plus the stored timeout and, when a
callback is registered, reports exactly one event (nothing otherwise):
`BC_UART_EVENT_ASYNC_READ_DATA` whenever the queue held a byte or had room for
one, and `BC_UART_EVENT_ASYNC_READ_TIMEOUT` when the queue was empty without
room, the byte having been dropped. -/
theorem irq_receive_branch (w : World) (c : bc_uart_channel_t) (q : bc_fifo_t)
    (t : bc_scheduler_task_t)
    (harmed : (w._bc_uart c).async_read_in_progress = true)
    (hq : (w._bc_uart c).read_fifo = some q)
    (hen : (w.periph (w._bc_uart c).usart).CR1_RXNEIE = true)
    (hpe : (w.periph (w._bc_uart c).usart).ISR_RXNE = true)
    (htask : pool_get w.sched.pool (w._bc_uart c).async_read_task_id = some t)
    (hfn : t.task = task_fn.async_read_task) (hpar : t.param = c)
    (htx : (w._bc_uart c).write_fifo = none →
      ((w.periph (w._bc_uart c).usart).CR1_TXEIE &&
        (w.periph (w._bc_uart c).usart).ISR_TXE) = false) :
    ∃ w1, _bc_uart_irq_handler w c = some w1 ∧
      (w1._bc_uart c).read_fifo = some { q with
        data := if q.data.length < q.capacity
          then q.data ++ [(w.periph (w._bc_uart c).usart).RDR % 256] else q.data } ∧
      pool_get w1.sched.pool (w._bc_uart c).async_read_task_id =
        some { t with tick_execution := w.sched.now } ∧
      (w1._bc_uart c).async_read_in_progress = true ∧
      ∀ d, ∃ w2, bc_scheduler_run_task (tick_advance w1 d)
            (w._bc_uart c).async_read_task_id = some w2 ∧
        pool_get w2.sched.pool (w._bc_uart c).async_read_task_id =
          some { t with tick_execution := w.sched.now + d + (w._bc_uart c).async_timeout } ∧
        (∀ h, (w._bc_uart c).event_handler = some h →
          ∃ e, w2.events = w.events ++ [e] ∧ e.handler = h ∧
            (q.data ≠ [] ∨ q.data.length < q.capacity →
              e.event = BC_UART_EVENT_ASYNC_READ_DATA) ∧
            (q.data = [] ∧ q.capacity ≤ q.data.length →
              e.event = BC_UART_EVENT_ASYNC_READ_TIMEOUT)) ∧
        ((w._bc_uart c).event_handler = none → w2.events = w.events) := by
  obtain ⟨w0, w1, e1, e2, e3⟩ :=
    irq_handler_defined w c htx (by intro hn; rw [hq] at hn; cases hn)
  obtain ⟨f1, f2, f3⟩ := irq_transmit_frame w w0 c e1
  obtain ⟨g1, g2, _, _⟩ := irq_complete_frame w0 c
  have fg := irq_frame_trans w w0 _ c f1 g1
  obtain ⟨_, _, cnow, ⟨_, _, _, _, crid, _, _, _, cus⟩, crx, _, _, cpe, crdr⟩ := fg
  have hrq : ((irq_complete w0 c)._bc_uart c).read_fifo = some q := by rw [g2, f3, hq]
  obtain ⟨w1b, r1, r2, r3⟩ := irq_receive_taken (irq_complete w0 c) c q hrq
    (by rw [cus, crx]; exact hen) (by rw [cus, cpe]; exact hpe)
  rw [e2] at r1
  cases r1
  have fall := irq_frame_trans w _ w1 c (irq_frame_trans w w0 _ c f1 g1)
    (irq_receive_frame _ w1 c e2).1
  obtain ⟨_, aev, anow, ⟨_, ahand, _, _, _, _, arip, atime, _⟩, _⟩ := fall
  have hfifo : (w1._bc_uart c).read_fifo = some { q with
      data := if q.data.length < q.capacity
        then q.data ++ [(w.periph (w._bc_uart c).usart).RDR % 256] else q.data } := by
    rw [r2, bc_fifo_irq_write_one, cus, crdr]
  have hpc : pool_get (irq_complete w0 c).sched.pool (w._bc_uart c).async_read_task_id = some t ∨
      pool_get (irq_complete w0 c).sched.pool (w._bc_uart c).async_read_task_id =
        some { t with tick_execution := w.sched.now } := by
    rcases irq_complete_pool w0 c (w._bc_uart c).async_read_task_id with k | k
    · left; rw [k, f2, htask]
    · right; rw [k, f2, htask]; rfl
  have hp1 : pool_get w1.sched.pool (w._bc_uart c).async_read_task_id =
      some { t with tick_execution := w.sched.now } := by
    rw [r3, pool_get_plan, crid, if_pos rfl, cnow]
    rcases hpc with k | k <;> rw [k] <;> rfl
  refine ⟨w1, e3, hfifo, hp1, by rw [arip]; exact harmed, ?_⟩
  intro d
  have hne : (q.data ≠ [] ∨ q.data.length < q.capacity) → (if q.data.length < q.capacity
      then q.data ++ [(w.periph (w._bc_uart c).usart).RDR % 256] else q.data) ≠ [] := by
    intro husable
    split
    · simp
    · rename_i hfull
      rcases husable with k | k
      · exact k
      · exact absurd k hfull
  have hem : (q.data = [] ∧ q.capacity ≤ q.data.length) → (if q.data.length < q.capacity
      then q.data ++ [(w.periph (w._bc_uart c).usart).RDR % 256] else q.data) = [] := by
    intro hfull
    rw [if_neg (Nat.not_lt.mpr hfull.2)]
    exact hfull.1
  obtain ⟨w2, s1, s2, s3, s4⟩ := run_read_task (tick_advance w1 d) c
    (w._bc_uart c).async_read_task_id { t with tick_execution := w.sched.now } _
    hp1 hfn hpar (by simp only [tick_advance, anow]; exact Nat.le_add_right _ _) hfifo
  have hev : (tick_advance w1 d).events = w.events := aev
  have hha : ((tick_advance w1 d)._bc_uart c).event_handler = (w._bc_uart c).event_handler :=
    ahand
  have hti : ((tick_advance w1 d)._bc_uart c).async_timeout = (w._bc_uart c).async_timeout :=
    atime
  have hno : (tick_advance w1 d).sched.now = w.sched.now + d := by
    simp only [tick_advance, anow]
  rw [hev, hha] at s3 s4
  rw [hti, hno] at s2
  refine ⟨w2, s1, s2, ?_, s4⟩
  intro h hh
  obtain ⟨e, x1, x2, x3⟩ := s3 h hh
  refine ⟨e, x1, x2, ?_, ?_⟩
  · intro hu
    rw [x3]
    simp only [hne hu, if_false]
  · intro hf
    rw [x3]
    simp only [hem hf, if_true]

/-- Witness of C18 amended: a byte arrives on `armed0` at time 30 (timeout 100): it is
queued, the read task is planned for 30, and its run at 30 reports data and
re-plans for 130. -/
theorem irq_receive_branch_witness :
    ∃ w1, _bc_uart_irq_handler armed0_rx BC_UART_UART0 = some w1 ∧
      (w1._bc_uart BC_UART_UART0).read_fifo = some ⟨4, [44]⟩ ∧
      pool_get w1.sched.pool 0 = some ⟨task_fn.async_read_task, BC_UART_UART0, 30⟩ ∧
      ∃ w2, bc_scheduler_run_task (tick_advance w1 0) 0 = some w2 ∧
        pool_get w2.sched.pool 0 = some ⟨task_fn.async_read_task, BC_UART_UART0, 130⟩ ∧
        ∃ e, w2.events = [e] ∧ e.event = BC_UART_EVENT_ASYNC_READ_DATA := by
  obtain ⟨w1, h1, h2, h3, _, h5⟩ := irq_receive_branch armed0_rx BC_UART_UART0 ⟨4, []⟩
    ⟨task_fn.async_read_task, BC_UART_UART0, 100⟩ rfl rfl rfl rfl rfl rfl rfl
    (by intro h; cases h)
  obtain ⟨w2, k1, k2, k3, _⟩ := h5 0
  obtain ⟨e, m1, _, m3, _⟩ := k3 7 rfl
  exact ⟨w1, h1, h2, h3, w2, k1, k2, e, m1, m3 (Or.inr (by decide))⟩

/-! ## Interrupt enables and task handles -/

theorem rx_async_write (w : World) (c : bc_uart_channel_t) (buffer : List Nat)
    (h : rx_matches w c) : rx_matches (bc_uart_async_write w c buffer).1 c := by
  unfold rx_matches at h ⊢
  unfold bc_uart_async_write
  cases hi : (w._bc_uart c).initialized with
  | false => simpa [hi] using h
  | true =>
    cases hq : (w._bc_uart c).write_fifo with
    | none => simpa [hi, hq] using h
    | some q =>
      simp only [hi, hq, Bool.not_true, Bool.false_eq_true, if_false]
      by_cases hz : (bc_fifo_write q buffer).2 = 0
      · simpa [hz] using h
      · have hnz : ((bc_fifo_write q buffer).2 != 0) = true := by simpa using hz
        simp only [hnz, if_true]
        cases hw : (w._bc_uart c).async_write_in_progress <;>
        by_cases hlp : (w._bc_uart c).usart = LPUART1 <;>
        simpa [hw, hlp, bc_module_core_deep_sleep_disable, bc_module_core_pll_enable] using h

theorem rx_async_read_start (w : World) (c : bc_uart_channel_t) (timeout : bc_tick_t)
    (h : rx_matches w c) : rx_matches (bc_uart_async_read_start w c timeout).1 c := by
  unfold rx_matches at h ⊢
  unfold bc_uart_async_read_start
  simp only []
  split
  · exact h
  · by_cases hlp : (w._bc_uart c).usart = LPUART1
    · simp [hlp]
    · simp [hlp, bc_module_core_pll_enable]

theorem rx_async_read_cancel (w : World) (c : bc_uart_channel_t)
    (h : rx_matches w c) : rx_matches (bc_uart_async_read_cancel w c).1 c := by
  unfold rx_matches at h ⊢
  unfold bc_uart_async_read_cancel
  simp only []
  split
  · exact h
  · by_cases hlp : (w._bc_uart c).usart = LPUART1
    · simp [hlp]
    · simp [hlp, bc_module_core_pll_disable]

theorem rx_async_read (w : World) (c : bc_uart_channel_t) (length : Nat)
    (r : World × Nat × List Nat) (e : bc_uart_async_read w c length = some r)
    (h : rx_matches w c) : rx_matches r.1 c := by
  unfold rx_matches at h ⊢
  unfold bc_uart_async_read at e
  simp only [] at e
  split at e
  · cases e
    exact h
  · split at e
    · cases e
    · cases e
      simpa using h

theorem rx_irq (w w1 : World) (c : bc_uart_channel_t) (txe tc rxne : Bool) (rdr : Nat)
    (e : exec w c (Op.irq txe tc rxne rdr) = some w1) (h : rx_matches w c) :
    rx_matches w1 c := by
  have e2 : _bc_uart_irq_handler (hw_status w (w._bc_uart c).usart txe tc rxne rdr) c
      = some w1 := e
  obtain ⟨_, _, _, f⟩ := irq_handler_frame _ w1 c e2
  obtain ⟨_, _, _, ⟨_, _, _, _, _, _, frip, _, fus⟩, frx, _⟩ := f
  unfold rx_matches at h ⊢
  have fus2 : (w1._bc_uart c).usart = (w._bc_uart c).usart := fus
  have frip2 : (w1._bc_uart c).async_read_in_progress = (w._bc_uart c).async_read_in_progress :=
    frip
  have frx2 : (w1.periph (w._bc_uart c).usart).CR1_RXNEIE =
      ((hw_status w (w._bc_uart c).usart txe tc rxne rdr).periph
        (w._bc_uart c).usart).CR1_RXNEIE := frx
  rw [fus2, frip2, frx2, ← h]
  simp [hw_status]

theorem rx_write_task (w : World) (c : bc_uart_channel_t) (h : rx_matches w c) :
    rx_matches (_bc_uart_async_write_task w c) c := by
  unfold rx_matches at h ⊢
  cases hh : (w._bc_uart c).event_handler <;>
  by_cases hlp : (w._bc_uart c).usart = LPUART1 <;>
  simpa [_bc_uart_async_write_task, hh, hlp, bc_module_core_deep_sleep_enable,
    bc_module_core_pll_disable, call_event_handler] using h

theorem rx_read_task (w w1 : World) (c : bc_uart_channel_t)
    (e : _bc_uart_async_read_task w c = some w1) (h : rx_matches w c) :
    rx_matches w1 c := by
  unfold rx_matches at h ⊢
  unfold _bc_uart_async_read_task at e
  simp only [] at e
  split at e
  · split at e
    · cases e
    · split at e
      · cases e; exact h
      · cases e; exact h
  · cases e; exact h

theorem rx_run (w w1 : World) (c : bc_uart_channel_t) (id : Nat)
    (hp : ∀ i t, pool_get w.sched.pool i = some t → t.param = c)
    (e : bc_scheduler_run_task w id = some w1) (h : rx_matches w c) :
    rx_matches w1 c := by
  unfold bc_scheduler_run_task at e
  split at e
  · cases e; exact h
  · rename_i t ht
    have hc := hp id t ht
    split at e
    · split at e
      · cases e
        rw [hc]
        exact rx_write_task _ c h
      · rw [hc] at e
        exact rx_read_task _ w1 c e h
    · cases e; exact h

theorem rx_exec (w w1 : World) (c : bc_uart_channel_t) (op : Op)
    (hp : ∀ i t, pool_get w.sched.pool i = some t → t.param = c)
    (e : exec w c op = some w1) (h : rx_matches w c) : rx_matches w1 c := by
  cases op with
  | async_write buffer => cases e; exact rx_async_write w c buffer h
  | async_read_start timeout => cases e; exact rx_async_read_start w c timeout h
  | async_read_cancel => cases e; exact rx_async_read_cancel w c h
  | async_read length =>
    simp only [exec, Option.map_eq_some'] at e
    obtain ⟨r, e1, e2⟩ := e
    rw [← e2]
    exact rx_async_read w c length r e1 h
  | irq txe tc rxne rdr => exact rx_irq w w1 c txe tc rxne rdr e h
  | run id => exact rx_run w w1 c id hp e h
  | tick d => cases e; exact h

theorem rx_execs (c : bc_uart_channel_t) (ops : List Op) :
    ∀ w : World, paired w c → rx_matches w c →
      ∃ w1, execs w c ops = some w1 ∧ paired w1 c ∧ rx_matches w1 c := by
  induction ops with
  | nil => exact fun w h r => ⟨w, rfl, h, r⟩
  | cons op rest ih =>
    intro w h r
    obtain ⟨w1, e, a, _⟩ := paired_exec w c op h
    have r1 := rx_exec w w1 c op (fun i t ht => (h.2.2.2.1.1 i t ht).1) e r
    obtain ⟨w2, e2, a2, r2⟩ := ih w1 a r1
    exact ⟨w2, by simp [execs, e, e2], a2, r2⟩

end BcUart
